import Mathlib

/-!
# go-pandoc: a shallow embedding of the conversion service

The development follows the Go sources package by package:

* `pandoc/file.go`      : the sandboxed path resolver (`File`),
* `pandoc/command.go`   : the process runner (`execCommand`),
* `pandoc/pandoc.go`    : the conversion orchestrator (`Pandoc.Convert`),
* `pandoc/fetcher/http` : the Remote-HTTP fetcher,
* `server/server.go`    : the HTTP handler and the response renderer.

Go strings are modelled by `String` and compared symbol by symbol, byte slices by
lists of bytes, `error` values by their message (the only observable the program
ever uses: every error of the repository is built by `errors.New` or `fmt.Errorf`
and is consumed through `err.Error()`).  Functions of the Go standard library and
the behaviour of the outside world (network, file system, child processes) are
taken as explicit parameters, so every theorem holds for all of them.
-/

namespace GoPandoc

/-! ## Basic data -/

/-- One octet. -/
abbrev Byte := Fin 256

/-- A byte sequence (the contents of a Go byte slice). -/
abbrev Bytes := List Byte

/-- A Go error value, observed through its message. -/
structure GoError where
  msg : String
deriving DecidableEq, Repr

/-- Go call results: a function either returns or the goroutine panics. -/
inductive Outcome (α : Type) where
  | returned (a : α)
  | panicked (why : String)
deriving DecidableEq, Repr

/-- Go `strings.HasPrefix s p`: `p` is a literal prefix of `s`. -/
def HasPrefix (s p : String) : Bool :=
  p.data.isPrefixOf s.data

/-- Go `strings.ToUpper`: every symbol is mapped by `unicode.ToUpper`, here
`upper` (on ASCII input the letters a to z are mapped and nothing else). -/
def ToUpper (upper : Char → Char) (s : String) : String :=
  ⟨s.data.map upper⟩

/-! ## encoding/base64, standard encoding -/

/-- The alphabet of `base64.StdEncoding`. -/
def encodeStd : List Char :=
  "ABCDEFGHIJKLMNOPQRSTUVWXYZabcdefghijklmnopqrstuvwxyz0123456789+/".data

/-- Truncation to a byte, Go `byte(n)`. -/
def toByte (n : Nat) : Byte := ⟨n % 256, Nat.mod_lt _ (by decide)⟩

/-- The symbol `enc.encode[n & 0x3F]`. -/
def b64Char (n : Nat) : Char := encodeStd.getD (n % 64) 'A'

/-- The entry `enc.decodeMap[c]`; `none` stands for `0xFF` (not in the alphabet). -/
def b64Val (c : Char) : Option Nat :=
  let i := encodeStd.indexOf c
  if i < 64 then some i else none

/-- Go `(*Encoding).Encode` with padding: three bytes give four symbols, a
remainder of one or two bytes is padded with `=`. -/
def EncodeChars : Bytes → List Char
  | [] => []
  | [a] =>
    let val := a.val * 65536
    [b64Char (val / 262144), b64Char (val / 4096), '=', '=']
  | [a, b] =>
    let val := a.val * 65536 + b.val * 256
    [b64Char (val / 262144), b64Char (val / 4096), b64Char (val / 64), '=']
  | a :: b :: c :: rest =>
    let val := a.val * 65536 + b.val * 256 + c.val
    b64Char (val / 262144) :: b64Char (val / 4096) :: b64Char (val / 64) :: b64Char val
      :: EncodeChars rest

/-- Go `base64.StdEncoding.EncodeToString`. -/
def EncodeToString (b : Bytes) : String := ⟨EncodeChars b⟩

/-- Go `(*Encoding).decodeQuantum`, repeated, on an input without line breaks:
full quanta of four symbols, then at most one padded quantum that must end the
input.  The unused low bits of a padded quantum are not checked (non-strict
mode). `none` stands for `CorruptInputError`. -/
def decodeQuanta : List Char → Option Bytes
  | [] => some []
  | a :: b :: c :: d :: rest =>
    match b64Val a, b64Val b with
    | some x, some y =>
      if c = '=' then
        if d = '=' ∧ rest = [] then
          let val := x * 262144 + y * 4096
          some [toByte (val / 65536)]
        else none
      else
        match b64Val c with
        | none => none
        | some z =>
          if d = '=' then
            if rest = [] then
              let val := x * 262144 + y * 4096 + z * 64
              some [toByte (val / 65536), toByte (val / 256)]
            else none
          else
            match b64Val d with
            | none => none
            | some t =>
              let val := x * 262144 + y * 4096 + z * 64 + t
              (decodeQuanta rest).map
                (fun r => toByte (val / 65536) :: toByte (val / 256) :: toByte val :: r)
    | _, _ => none
  | _ => none

/-- Go `base64.StdEncoding.DecodeString`: carriage returns and line feeds are
skipped wherever they stand, the rest is decoded quantum by quantum. -/
def DecodeString (s : String) : Option Bytes :=
  decodeQuanta (s.data.filter (fun c => c != '\n' && c != '\r'))

/-! ## pandoc/file.go -/

/-- The fields of `net/url.URL` that `File.Path` reads. -/
structure URL where
  Scheme : String
  Path : String
deriving DecidableEq, Repr

/-- The response of `http.DefaultClient.Get` as `downloadToFile` reads it. -/
structure GetResponse where
  contentType : String
  body : Except GoError Bytes

/-- Standard-library functions and outside-world answers used by `File`. -/
structure FileEnv where
  /-- Is `url.Parse`: a parsed URL, or `(nil, err)`. -/
  urlParse : String → Except GoError URL
  /-- Is `http.DefaultClient.Get`. -/
  httpGet : String → Except GoError GetResponse
  /-- Is `mime.ExtensionsByType` (its error is discarded by the caller). -/
  extensionsByType : String → List String
  /-- Is `filepath.Base`. -/
  pathBase : String → String
  /-- Is `filepath.Ext`. -/
  pathExt : String → String
  /-- Is `filepath.Join` of two elements. -/
  pathJoin : String → String → String
  /-- Is `os.TempDir()`. -/
  osTempDir : String
  /-- Successive values of `uuid.New().String()`. -/
  uuid : Nat → String
  /-- Is `os.MkdirAll dir 0755`: `none` on success. -/
  mkdirAll : String → Option GoError
  /-- Does `ioutil.WriteFile` on this name succeed? -/
  writeOk : String → Bool
  /-- The text of the `base64.CorruptInputError` raised on an undecodable input. -/
  corruptInput : String → String

/-- What `File` does to the outside world. -/
structure FileWorld where
  /-- Regular files written, newest first. -/
  files : List (String × Bytes)
  /-- URLs downloaded, newest first. -/
  downloads : List String
  /-- Number of UUIDs drawn so far. -/
  uuids : Nat
deriving DecidableEq, Repr

/-- The Go struct `File`; `initDone` is the state of `initOnce`. -/
structure File where
  Url : String
  SafeDir : String
  TempDirPrefix : String
  path : String
  lastError : Option GoError
  shouldCleanup : Bool
  initDone : Bool
deriving DecidableEq, Repr

/-- A `File` literal `File{Url: url, SafeDir: safeDir, TempDirPrefix: pfx}`: the
unexported fields hold their zero values. -/
def File.new (url safeDir pfx : String) : File :=
  { Url := url, SafeDir := safeDir, TempDirPrefix := pfx,
    path := "", lastError := none, shouldCleanup := false, initDone := false }

/-- The Go method `urlToFileName`. Returns the name, the error and the number of
UUIDs drawn. -/
def File.urlToFileName (env : FileEnv) (w : FileWorld) (fileUrl contentType : String) :
    (String × Option GoError) × FileWorld :=
  match env.urlParse fileUrl with
  | .error e =>
    (("", some ⟨"parse url of " ++ fileUrl ++ " failure, error: " ++ e.msg⟩), w)
  | .ok u =>
    let filename := env.pathBase u.Path
    let (filename, w) :=
      if u.Path.length = 0 then (env.uuid w.uuids, { w with uuids := w.uuids + 1 })
      else (filename, w)
    let ext := env.pathExt filename
    let filename :=
      if ext.length = 0 then
        if contentType.length > 0 then
          match env.extensionsByType contentType with
          | e0 :: _ => filename ++ e0
          | [] => filename
        else filename
      else filename
    ((filename, none), w)

/-- The Go method `writeToTempFile`. -/
def File.writeToTempFile (env : FileEnv) (p : File) (w : FileWorld) (filename : String)
    (data : Bytes) : (String × Option GoError) × FileWorld :=
  let tmpDir := env.osTempDir
  let dir := env.pathJoin tmpDir p.TempDirPrefix
  match env.mkdirAll dir with
  | some e => (("", some ⟨"make temp dir failure: " ++ dir ++ ", error: " ++ e.msg⟩), w)
  | none =>
    let tempFileName := env.pathJoin dir filename
    if env.writeOk tempFileName then
      ((tempFileName, none), { w with files := (tempFileName, data) :: w.files })
    else
      (("", some ⟨"write file " ++ tempFileName ++ " failure"⟩), w)

/-- The Go method `downloadToFile`. -/
def File.downloadToFile (env : FileEnv) (p : File) (w : FileWorld) :
    (String × Option GoError) × FileWorld :=
  let w := { w with downloads := p.Url :: w.downloads }
  match env.httpGet p.Url with
  | .error e =>
    (("", some ⟨"download file failure for url " ++ p.Url ++ ", error: " ++ e.msg⟩), w)
  | .ok resp =>
    let ct := resp.contentType
    match File.urlToFileName env w p.Url ct with
    | ((_, some e), w) => (("", some e), w)
    | ((filename, none), w) =>
      match resp.body with
      | .error e => (("", some ⟨"read body from " ++ p.Url ++ ", error: " ++ e.msg⟩), w)
      | .ok data => File.writeToTempFile env p w filename data

/-- The text matched by `(.*?)c` at the head of the input: the symbols before the
first `c`, provided no line feed stands before it (`.` does not match a line
feed), and what follows that `c`. -/
def cutInLine (c : Char) : List Char → Option (List Char × List Char)
  | [] => none
  | x :: xs =>
    if x = c then some ([], xs)
    else if x = '\n' then none
    else (cutInLine c xs).map (fun r => (x :: r.1, r.2))

/-- One match of the expression `data:(.*?);(.*?),(.*)` anchored at the head of
the input: the four submatches and the unread rest of the input. -/
def matchDataAt (s : List Char) : Option (List String × List Char) :=
  if "data:".data.isPrefixOf s then
    match cutInLine ';' (s.drop 5) with
    | none => none
    | some (g1, r1) =>
      match cutInLine ',' r1 with
      | none => none
      | some (g2, r2) =>
        let g3 := r2.takeWhile (fun c => c != '\n')
        let rest := r2.dropWhile (fun c => c != '\n')
        some ([String.mk ("data:".data ++ g1 ++ [';'] ++ g2 ++ [','] ++ g3),
               String.mk g1, String.mk g2, String.mk g3], rest)
  else none

/-- Successive leftmost matches, scanning at most `fuel` positions. -/
def findAllFrom : Nat → List Char → List (List String)
  | 0, _ => []
  | _ + 1, [] => []
  | fuel + 1, c :: cs =>
    match matchDataAt (c :: cs) with
    | some (m, rest) => m :: findAllFrom fuel rest
    | none => findAllFrom fuel cs

/-- Go `reg.FindAllStringSubmatch(s, -1)` for the expression
`data:(.*?);(.*?),(.*)` compiled in `parseBase64Data`. -/
def FindAllStringSubmatch (s : String) : List (List String) :=
  findAllFrom (s.length + 1) s.data

/-- The Go method `parseBase64Data`.  Indexing `matched[0]` of an empty result
panics, as does any index out of range. -/
def File.parseBase64Data (env : FileEnv) (p : File) :
    Outcome (String × Bytes × Option GoError) :=
  let matched := FindAllStringSubmatch p.Url
  let formatError : Outcome Bool :=
    if matched.length ≠ 1 then
      match matched.head? with
      | none => .panicked "index out of range [0] with length 0"
      | some m0 => .returned (m0.length ≠ 4)
    else .returned false
  match formatError with
  | .panicked why => .panicked why
  | .returned true =>
    .returned ("", [], some ⟨"base64 data format error, the format should be: "
      ++ "data:content-type;encoding,base64string"⟩)
  | .returned false =>
    match matched.head? with
    | none => .panicked "index out of range [0] with length 0"
    | some m0 =>
      match m0.get? 3, m0.get? 1 with
      | some payload, some ct =>
        match DecodeString payload with
        | none =>
          .returned ("", [], some ⟨"parse base64 data failure: " ++ env.corruptInput payload⟩)
        | some d => .returned (ct, d, none)
      | _, _ => .panicked "index out of range"

/-- The Go method `base64dataToFile`. -/
def File.base64dataToFile (env : FileEnv) (p : File) (w : FileWorld) :
    Outcome ((String × Option GoError) × FileWorld) :=
  match File.parseBase64Data env p with
  | .panicked why => .panicked why
  | .returned (_, _, some e) => .returned (("", some e), w)
  | .returned (ct, data, none) =>
    let name := env.uuid w.uuids
    let w := { w with uuids := w.uuids + 1 }
    match File.urlToFileName env w name ct with
    | ((_, some e), w) => .returned (("", some e), w)
    | ((filename, none), w) => .returned (File.writeToTempFile env p w filename data)

/-- The Go method `Path`: the resolver state after the call, the outside world
after the call, and what the call returns.  `sync.Once` marks the initialisation
as done even when its body panics; the panic then reaches the caller. -/
def File.Path (env : FileEnv) (p : File) (w : FileWorld) :
    File × FileWorld × Outcome (String × Option GoError) :=
  if p.initDone then (p, w, .returned (p.path, p.lastError))
  else
    let p := { p with initDone := true }
    if p.Url.length = 0 then (p, w, .returned (p.path, p.lastError))
    else
      match env.urlParse p.Url with
      | .error e =>
        ({ p with lastError := some e }, w,
          .panicked "invalid memory address or nil pointer dereference")
      | .ok u =>
        let p := { p with lastError := none }
        if u.Scheme = "http" ∨ u.Scheme = "https" then
          let r := File.downloadToFile env p w
          let p := { p with path := r.1.1, lastError := r.1.2, shouldCleanup := true }
          (p, r.2, .returned (p.path, p.lastError))
        else if u.Scheme = "data" then
          match File.base64dataToFile env p w with
          | .panicked why => (p, w, .panicked why)
          | .returned r =>
            let p := { p with path := r.1.1, lastError := r.1.2, shouldCleanup := true }
            (p, r.2, .returned (p.path, p.lastError))
        else if u.Scheme = "file" ∨ u.Scheme = "" then
          if !HasPrefix u.Path p.SafeDir then
            let p := { p with lastError := some ⟨"file path is not in safe dir"⟩ }
            (p, w, .returned (p.path, p.lastError))
          else
            let p := { p with path := u.Path }
            (p, w, .returned (p.path, p.lastError))
        else
          let p := { p with lastError := some ⟨"unknown path schema, " ++ u.Scheme⟩ }
          (p, w, .returned (p.path, p.lastError))

/-- The Go method `Cleanup`: `os.Remove` of a resolver-owned file. -/
def File.Cleanup (p : File) (w : FileWorld) : FileWorld :=
  if p.shouldCleanup ∧ p.lastError = none ∧ p.path.length > 0 then
    { w with files := w.files.filter (fun f => f.1 != p.path) }
  else w

/-! ### A concrete standard library for examples -/

/-- Go `url.getScheme`, scanning from position `i`. -/
def getSchemeFrom (raw : List Char) : Nat → List Char → Except GoError (List Char × List Char)
  | _, [] => .ok ([], raw)
  | i, c :: cs =>
    if c.isAlpha then getSchemeFrom raw (i + 1) cs
    else if c.isDigit ∨ c = '+' ∨ c = '-' ∨ c = '.' then
      if i = 0 then .ok ([], raw) else getSchemeFrom raw (i + 1) cs
    else if c = ':' then
      if i = 0 then .error ⟨"missing protocol scheme"⟩ else .ok (raw.take i, cs)
    else .ok ([], raw)

/-- Go `url.Parse` on the inputs used in the examples: strings with no query, no
fragment, no percent escape and no control character.  The scheme is split off
by `getScheme` and lower-cased; a rootless rest after a scheme is opaque (empty
path); a rootless rest without scheme may not hold a colon in its first segment;
an authority introduced by `//` is split off (it is not validated here). -/
def exampleUrlParse (rawURL : String) : Except GoError URL :=
  match getSchemeFrom rawURL.data 0 rawURL.data with
  | .error e => .error ⟨"parse \"" ++ rawURL ++ "\": " ++ e.msg⟩
  | .ok (scheme, rest) =>
    let scheme := String.mk (scheme.map Char.toLower)
    if !"/".data.isPrefixOf rest then
      if scheme ≠ "" then .ok ⟨scheme, ""⟩
      else if (rest.takeWhile (fun c => c != '/')).contains ':' then
        .error ⟨"parse \"" ++ rawURL ++ "\": first path segment in URL cannot contain colon"⟩
      else .ok ⟨scheme, String.mk rest⟩
    else if (scheme ≠ "" ∨ !"///".data.isPrefixOf rest) ∧ "//".data.isPrefixOf rest then
      .ok ⟨scheme, String.mk ((rest.drop 2).dropWhile (fun c => c != '/'))⟩
    else .ok ⟨scheme, String.mk rest⟩

/-- A Unix-like environment in which nothing fails: paths are joined with a
slash, no MIME extension is known, the n-th UUID is `uuid-n`, every write
succeeds and every download fails. -/
def exampleEnv : FileEnv where
  urlParse := exampleUrlParse
  httpGet := fun _ => .error ⟨"no network"⟩
  extensionsByType := fun _ => []
  pathBase := fun s => s
  pathExt := fun _ => ""
  pathJoin := fun a b => a ++ "/" ++ b
  osTempDir := "/tmp"
  uuid := fun n => "uuid-" ++ toString n
  mkdirAll := fun _ => none
  writeOk := fun _ => true
  corruptInput := fun _ => "illegal base64 data"

/-- The outside world before anything happened. -/
def FileWorld.empty : FileWorld := { files := [], downloads := [], uuids := 0 }

/-- The elements of a slash-separated path, the element being read first. -/
def splitSlash : List Char → List Char → List (List Char)
  | cur, [] => [cur]
  | cur, c :: cs => if c = '/' then cur :: splitSlash [] cs else splitSlash (cur ++ [c]) cs

/-- Go `filepath.Clean` on rooted slash-separated paths: empty and `.` elements
are dropped, `..` removes the element before it (and is dropped at the root). -/
def Clean (path : String) : String :=
  let step (acc : List (List Char)) (seg : List Char) : List (List Char) :=
    if seg = [] ∨ seg = ['.'] then acc
    else if seg = ['.', '.'] then acc.dropLast
    else acc ++ [seg]
  match (splitSlash [] path.data).foldl step [] with
  | [] => "/"
  | segs => ⟨segs.foldr (fun seg r => '/' :: seg ++ r) []⟩

/-! ## pandoc/command.go -/

/-- A running process of the host and the process group it belongs to. -/
structure Proc where
  pid : Nat
  pgid : Nat
deriving DecidableEq, Repr

/-- The case of the `select` statement that fires. -/
inductive Resolved where
  /-- `err = <-ch`: `cmd.Wait()` returned first, with this error (`none`: the
  process exited successfully). -/
  | exited (waitErr : Option GoError)
  /-- `<-time.After(timeout)` fired first. -/
  | timeout
deriving DecidableEq, Repr

/-- The errors with which `os/exec` refuses to set up or start a command. -/
inductive SpawnFailure where
  /-- A `*os.SyscallError` of `os.Pipe`, such as `pipe2: too many open files`. -/
  | syscall (call errno : String)
  /-- A `*exec.Error`: the executable was not found, such as
  `exec: "pandoc": executable file not found in $PATH`; `quoted` is the quoted
  command name. -/
  | lookup (quoted reason : String)
  /-- A `*fs.PathError` of the fork, such as
  `fork/exec /usr/bin/pandoc: permission denied`. -/
  | path (op name errno : String)
  /-- The error `exec: no command` of a command without a path. -/
  | noCommand
deriving DecidableEq, Repr

/-- The error value of a spawn failure, with the message its `Error` method
gives. -/
def SpawnFailure.error : SpawnFailure → GoError
  | .syscall call errno => ⟨call ++ ": " ++ errno⟩
  | .lookup quoted reason => ⟨"exec: " ++ quoted ++ ": " ++ reason⟩
  | .path op name errno => ⟨op ++ " " ++ name ++ ": " ++ errno⟩
  | .noCommand => ⟨"exec: no command"⟩

/-- One run of an external command as `execCommand` observes it. -/
structure ChildRun where
  /-- Error of `cmd.StdinPipe()`. -/
  stdinPipe : Option SpawnFailure
  /-- Error of `cmd.StdoutPipe()`. -/
  stdoutPipe : Option SpawnFailure
  /-- Error of `cmd.StderrPipe()`. -/
  stderrPipe : Option SpawnFailure
  /-- Error of `cmd.Start()`. -/
  start : Option SpawnFailure
  /-- Process id of the started child. -/
  pid : Nat
  /-- Processes the child has spawned that are alive when `select` resolves. -/
  descendants : List Nat
  /-- Files the command has written when `select` resolves. -/
  writes : List (String × Bytes)
  /-- Which case of `select` fires. -/
  resolved : Resolved
  /-- What the process has written to its standard output. -/
  stdout : Bytes
  /-- What the process has written to its standard error. -/
  stderr : String
  /-- How many bytes the goroutine `io.Copy(outBuf, stdout)` has copied when
  `outBuf` is read: the goroutine is not waited for. -/
  outCopied : Nat
  /-- How many symbols the goroutine `io.Copy(errBuf, stderr)` has copied when
  `errBuf` is read: the goroutine is not waited for. -/
  errCopied : Nat
deriving DecidableEq, Repr

/-- Contents of `outBuf` when it is read: what the copying goroutine has moved
so far. -/
def ChildRun.outBuf (run : ChildRun) : Bytes := run.stdout.take run.outCopied

/-- Text of `errBuf` when it is read: what the copying goroutine has moved so
far. -/
def ChildRun.errBuf (run : ChildRun) : String := ⟨run.stderr.data.take run.errCopied⟩

/-- The goroutine copying standard output has moved everything the process
wrote before `outBuf` is read. -/
def ChildRun.outDrained (run : ChildRun) : Prop := run.stdout.length ≤ run.outCopied

/-- The goroutine copying standard error has moved everything the process wrote
before `errBuf` is read. -/
def ChildRun.errDrained (run : ChildRun) : Prop := run.stderr.length ≤ run.errCopied

/-- The host as the `pandoc` package changes it. -/
structure World where
  /-- Regular files on disk: name and contents, the first entry of a name counts. -/
  files : List (String × Bytes)
  /-- Running processes. -/
  procs : List Proc
  /-- Fetcher invocations (fetcher name and parameter blob), newest first. -/
  fetches : List (String × Bytes)
  /-- Number of UUIDs drawn so far. -/
  uuids : Nat
deriving DecidableEq, Repr

/-- Signal delivery of `cmd.Process.Kill()`: `SIGKILL` to the process `pid`
alone; the signal is taken to be effective at once. -/
def processKill (pid : Nat) (procs : List Proc) : List Proc :=
  procs.filter (fun q => q.pid != pid)

/-- The processes a started command adds to the host: `Setpgid: true` with
`Pgid: 0` makes the child the leader of a new group, which its own children
inherit. -/
def startedProcs (run : ChildRun) : List Proc :=
  ⟨run.pid, run.pid⟩ :: run.descendants.map (fun d => ⟨d, run.pid⟩)

/-- The error of the first spawn step that fails, in the order `StdinPipe`,
`StdoutPipe`, `StderrPipe`, `Start`. -/
def ChildRun.spawnError (run : ChildRun) : Option SpawnFailure :=
  match run.stdinPipe, run.stdoutPipe, run.stderrPipe, run.start with
  | some e, _, _, _ => some e
  | none, some e, _, _ => some e
  | none, none, some e, _ => some e
  | none, none, none, r => r

/-- The Go function `execCommand`, for the run `run` of the command.  The result
is `none` for a nil slice.  The buffers are read as the copying goroutines have
filled them at that moment. -/
def execCommand (run : ChildRun) (w : World) : (Option Bytes × Option GoError) × World :=
  match run.stdinPipe with
  | some f => ((none, some f.error), w)
  | none =>
  match run.stdoutPipe with
  | some f => ((none, some f.error), w)
  | none =>
  match run.stderrPipe with
  | some f => ((none, some f.error), w)
  | none =>
  match run.start with
  | some f => ((none, some f.error), w)
  | none =>
    let w := { w with files := run.writes ++ w.files, procs := w.procs ++ startedProcs run }
    match run.resolved with
    | .timeout =>
      let w := { w with procs := processKill run.pid w.procs }
      ((none, some ⟨"execute timeout"⟩), w)
    | .exited waitErr =>
      -- the child is gone: `Wait` has reaped it
      let w := { w with procs := w.procs.filter (fun q => q.pid != run.pid) }
      match waitErr with
      | some _ => ((none, some ⟨run.errBuf⟩), w)
      | none =>
        if run.outBuf.length > 0 then ((some run.outBuf, none), w)
        else ((none, none), w)

/-! ## pandoc/pandoc.go -/

/-- The Go struct `ConvertOptions`: the three fields `Convert` reads, and the
remaining option fields as one opaque value. -/
structure ConvertOptions where
  From : String
  To : String
  DataDir : String
  others : List String
deriving DecidableEq, Repr

/-- The Go struct `FetcherOptions`. -/
structure FetcherOptions where
  Name : String
  Params : Bytes
deriving DecidableEq, Repr

/-- A value of the interface `fetcher.Fetcher`: its method `Fetch`. -/
structure Fetcher where
  Fetch : Bytes → Option Bytes × Option GoError

/-- The Go struct `Pandoc`; `timeout` in nanoseconds. -/
structure Pandoc where
  timeout : Nat
  fetchers : String → Option Fetcher
  verbose : Bool
  trace : Bool
  dumpArgs : Bool
  ignoreArgs : Bool
  safeDir : String

/-- Standard-library functions and outside-world answers used by `Convert`. -/
structure Sys where
  /-- The method `toCommandArgs` on the options completed with the four flags of
  `Pandoc` (the serialisation of the option fields into flags). -/
  toCommandArgs : ConvertOptions → Bool → Bool → Bool → Bool → List String
  /-- Is `ioutil.TempDir("", "go-pandoc")`. -/
  tempDir : Except GoError String
  /-- Is `filepath.Join` of two elements. -/
  pathJoin : String → String → String
  /-- Successive values of `uuid.New()`. -/
  uuid : Nat → String
  /-- Is `ioutil.WriteFile name data 0644`: `none` on success; a failed write is
  taken to leave no file. -/
  writeFile : String → Bytes → Option GoError
  /-- Error of `ioutil.ReadFile` on a missing file. -/
  notExist : String → GoError
  /-- How the command `name args` runs under the timeout. -/
  run : Nat → String → List String → ChildRun

/-- Go `os.Remove` of a regular file (an error is ignored by the callers). -/
def osRemove (name : String) (w : World) : World :=
  { w with files := w.files.filter (fun f => f.1 != name) }

/-- The Go method `fetch`. -/
def Pandoc.fetch (p : Pandoc) (fetcherOpts : FetcherOptions) (w : World) :
    (Option Bytes × Option GoError) × World :=
  match p.fetchers fetcherOpts.Name with
  | none => ((none, some ⟨"fetcher " ++ fetcherOpts.Name ++ " not exist"⟩), w)
  | some f =>
    (f.Fetch fetcherOpts.Params,
      { w with fetches := (fetcherOpts.Name, fetcherOpts.Params) :: w.fetches })

/-- The Go method `Convert`.  The two deferred `os.Remove` calls run when the
function returns, the one registered last first. -/
def Pandoc.Convert (sys : Sys) (p : Pandoc) (fetcherOpts : FetcherOptions)
    (convertOpts : ConvertOptions) (w : World) : (Option Bytes × Option GoError) × World :=
  if convertOpts.DataDir.length > 0 ∧ !HasPrefix convertOpts.DataDir p.safeDir then
    ((none, some ⟨"DataDir: '" ++ convertOpts.DataDir ++ "' is not is safe dir: '"
      ++ p.safeDir ++ "'"⟩), w)
  else if fetcherOpts.Name.length = 0 then
    ((none, some ⟨"non input method, please check your fetcher options or uri param"⟩), w)
  else
    match Pandoc.fetch p fetcherOpts w with
    | ((_, some e), w) => ((none, some e), w)
    | ((data, none), w) =>
      match sys.tempDir with
      | .error e => ((none, some e), w)
      | .ok tmpDir =>
        let tmpInput := sys.pathJoin tmpDir (sys.uuid w.uuids) ++ "." ++ convertOpts.From
        let tmpOutpout := sys.pathJoin tmpDir (sys.uuid (w.uuids + 1)) ++ "." ++ convertOpts.To
        let w := { w with uuids := w.uuids + 2 }
        match sys.writeFile tmpInput (data.getD []) with
        | some e => ((none, some e), w)
        | none =>
          let w := { w with files := (tmpInput, data.getD []) :: w.files }
          -- defer os.Remove(tmpInput)
          let args := sys.toCommandArgs convertOpts p.verbose p.trace p.dumpArgs p.ignoreArgs
          let args := args ++ ["--quiet", tmpInput, "--output", tmpOutpout]
          match execCommand (sys.run p.timeout "pandoc" args) w with
          | ((_, some e), w) => ((none, some e), osRemove tmpInput w)
          | ((_, none), w) =>
            -- defer os.Remove(tmpOutpout)
            match w.files.lookup tmpOutpout with
            | none => ((none, some (sys.notExist tmpOutpout)), osRemove tmpInput (osRemove tmpOutpout w))
            | some result => ((some result, none), osRemove tmpInput (osRemove tmpOutpout w))

/-! ## pandoc/fetcher/http/http.go -/

/-- The Go struct `Params` of the Remote-HTTP fetcher; the two maps are listed in
the order in which `range` visits them. -/
structure Params where
  URL : String
  Method : String
  Headers : List (String × String)
  Data : Bytes
  Replace : List (String × String)
deriving DecidableEq, Repr

/-- The HTTP request handed to `client.Do`. -/
structure Request where
  Method : String
  URL : String
  Header : List (String × String)
  Body : Bytes
deriving DecidableEq, Repr

/-- The HTTP response as `send` reads it: the status code and what
`ioutil.ReadAll(resp.Body)` returns. -/
structure Response where
  StatusCode : Int
  body : Bytes
  readErr : Option GoError
deriving DecidableEq, Repr

/-- Standard-library functions and the network as `HttpFetcher` uses them. -/
structure HttpEnv where
  /-- Is `json.Unmarshal` into a zero `Params`: the filled struct, or an error. -/
  unmarshal : Bytes → Except GoError Params
  /-- Error of `http.NewRequest method url body`. -/
  newRequest : String → String → Option GoError
  /-- Is `client.Do`. -/
  roundTrip : Request → Except GoError Response
  /-- Is `bytes.Replace(data, []byte(k), []byte(v), -1)`. -/
  replaceAll : Bytes → String → String → Bytes
  /-- Is `unicode.ToUpper`. -/
  unicodeToUpper : Char → Char

/-- The Go method `Params.Validation` (pointer receiver): the parameters after
the call and the error; `upper` is `unicode.ToUpper`. -/
def Params.Validation (upper : Char → Char) (p : Params) : Params × Option GoError :=
  if p.URL.length = 0 then
    (p, some ⟨"[fetcher-http]: params of url is empty"⟩)
  else
    let p := { p with Method := ToUpper upper p.Method }
    let p := if p.Method.length = 0 then { p with Method := "GET" } else p
    if p.Method ≠ "GET" ∧ p.Method ≠ "POST" then
      (p, some ⟨"[fetcher-http]: method " ++ p.Method ++ " not support"⟩)
    else (p, none)

/-- Go `textproto.validHeaderFieldByte`: the token symbols of RFC 7230. -/
def validHeaderFieldByte (c : Char) : Bool :=
  c.isAlphanum || "!#$%&'*+-.^_`|~".data.contains c

/-- The canonical spelling of a header key made of token symbols: upper case at
the start and after each dash, lower case elsewhere. -/
def canonicalFrom (upper : Bool) : List Char → List Char
  | [] => []
  | c :: cs =>
    let c2 := if upper then c.toUpper else c.toLower
    c2 :: canonicalFrom (c2 == '-') cs

/-- Go `textproto.CanonicalMIMEHeaderKey`: a key holding a symbol that is no
token symbol is returned unchanged. -/
def CanonicalMIMEHeaderKey (s : String) : String :=
  if s.data.all validHeaderFieldByte then ⟨canonicalFrom true s.data⟩ else s

/-- Go `Header.Set` on a header map: the key is stored in canonical form. -/
def headerSet (h : List (String × String)) (k v : String) : List (String × String) :=
  (CanonicalMIMEHeaderKey k, v) :: h.filter (fun e => e.1 != CanonicalMIMEHeaderKey k)

/-- Go `req.Header.Set` over the `Headers` map. -/
def setHeaders (headers : List (String × String)) : List (String × String) :=
  headers.foldl (fun h kv => headerSet h kv.1 kv.2) []

/-- The request `send` hands to `client.Do`: method, URL and body of the
parameters, and the headers when there are any. -/
def buildRequest (params : Params) : Request :=
  { Method := params.Method, URL := params.URL,
    Header := if params.Headers.length > 0 then setHeaders params.Headers else [],
    Body := params.Data }

/-- The Go method `HttpFetcher.send`: data, error and the requests issued (the
second component lists the requests handed to `client.Do` by this call). -/
def HttpFetcher.send (env : HttpEnv) (params : Params) :
    (Option Bytes × Option GoError) × List Request :=
  match env.newRequest params.Method params.URL with
  | some e => ((none, some e), [])
  | none =>
    let req := buildRequest params
    match env.roundTrip req with
    | .error e => ((none, some e), [req])
    | .ok resp =>
      if resp.StatusCode ≠ 200 then
        ((none, some ⟨"[fetcher-http]: fetch url by " ++ params.Method ++ " failure <"
          ++ params.URL ++ ">, status code is " ++ toString resp.StatusCode⟩), [req])
      else
        let data := params.Replace.foldl (fun d kv => env.replaceAll d kv.1 kv.2) resp.body
        ((some data, resp.readErr), [req])

/-- The Go method `HttpFetcher.Fetch`. -/
def HttpFetcher.Fetch (env : HttpEnv) (fetchParams : Bytes) :
    (Option Bytes × Option GoError) × List Request :=
  match env.unmarshal fetchParams with
  | .error e => ((none, some ⟨"parse param failure, error is " ++ e.msg⟩), [])
  | .ok params =>
    match Params.Validation env.unicodeToUpper params with
    | (_, some e) => ((none, some e), [])
    | (params, none) => HttpFetcher.send env params

/-! ## pandoc/fetcher/fetcher.go -/

/-- The configuration tree handed to a fetcher constructor. -/
abbrev Configuration := List (String × String)

/-- The Go type `NewFetcherFunc`. -/
abbrev NewFetcherFunc := Configuration → Except GoError Fetcher

/-- The package variable `newFetcherFuncs`, a Go map from driver names to
constructors, as the list of its entries. -/
abbrev Registry := List (String × NewFetcherFunc)

/-- The driver names registered in the map. -/
def Registry.names (reg : Registry) : List String := reg.map Prod.fst

/-- The Go function `RegisterFetcher`: the error and the map after the call; a
nil `fn` is `none`. -/
def RegisterFetcher (reg : Registry) (name : String) (fn : Option NewFetcherFunc) :
    Option GoError × Registry :=
  if name.length = 0 then (some ⟨"fetcher driver name is empty"⟩, reg)
  else
    match fn with
    | none => (some ⟨"the fetcher driver of " ++ name ++ "'s new func is nil"⟩, reg)
    | some f =>
      match reg.lookup name with
      | some _ => (some ⟨"driver of " ++ name ++ " already exist"⟩, reg)
      | none => (none, (name, f) :: reg.filter (fun e => e.1 != name))

/-- The Go function `fetcher.New`. -/
def NewFetcher (reg : Registry) (name : String) (conf : Configuration) : Except GoError Fetcher :=
  match reg.lookup name with
  | none => .error ⟨"fetcher driver of " ++ name ++ " not exist"⟩
  | some fn => fn conf

/-! ## pandoc/fetcher/data/data.go -/

namespace data

/-- The Go struct `Params` of the inline fetcher. -/
structure Params where
  Data : Bytes
deriving DecidableEq, Repr

/-- The Go method `Params.Validation`. -/
def Params.Validation (p : Params) : Option GoError :=
  if p.Data.length = 0 then some ⟨"[fetcher-data]: params of data is empty"⟩
  else none

/-- The Go method `DataFetcher.Fetch`; `unmarshal` is `json.Unmarshal` into a
zero `Params`.  The data is `none` for a nil slice. -/
def DataFetcher.Fetch (unmarshal : Bytes → Except GoError Params) (fetchParams : Bytes) :
    Option Bytes × Option GoError :=
  match unmarshal fetchParams with
  | .error e => (none, some ⟨"parse param failure, error is " ++ e.msg⟩)
  | .ok params =>
    match Params.Validation params with
    | some e => (none, some e)
    | none => (some params.Data, none)

/-- The bytes of an ASCII text, Go `[]byte(s)`. -/
def bytesOf (s : String) : Bytes := s.data.map (fun c => toByte c.toNat)

/-- The text of an ASCII byte sequence, Go `string(b)`. -/
def textOf (b : Bytes) : List Char := b.map (fun x => Char.ofNat x.val)

/-- Is the symbol JSON white space? -/
def isSpace (c : Char) : Bool := c = ' ' || c = '\n' || c = '\r' || c = '\t'

/-- The symbols before the first `"`, provided none of them is a backslash, and
what follows that quote. -/
def plainString : List Char → Option (List Char × List Char)
  | [] => none
  | c :: cs =>
    if c = '"' then some ([], cs)
    else if c = '\\' then none
    else (plainString cs).map (fun r => (c :: r.1, r.2))

/-- Go `json.Unmarshal` into a zero `Params` on the blobs used in the examples:
an object with the one member `data` whose value is a string without escapes
(decoded as standard base64 into the byte slice), or the empty object. -/
def exampleUnmarshal (blob : Bytes) : Except GoError Params :=
  let syntaxError : Except GoError Params := .error ⟨"invalid character in JSON input"⟩
  match (textOf blob).dropWhile isSpace with
  | '{' :: r =>
    match r.dropWhile isSpace with
    | '}' :: r => if r.dropWhile isSpace = [] then .ok ⟨[]⟩ else syntaxError
    | '"' :: 'd' :: 'a' :: 't' :: 'a' :: '"' :: r =>
      match r.dropWhile isSpace with
      | ':' :: r =>
        match r.dropWhile isSpace with
        | '"' :: r =>
          match plainString r with
          | none => syntaxError
          | some (payload, r) =>
            match r.dropWhile isSpace with
            | '}' :: r =>
              if r.dropWhile isSpace = [] then
                match DecodeString ⟨payload⟩ with
                | some d => .ok ⟨d⟩
                | none => .error ⟨"illegal base64 data"⟩
              else syntaxError
            | _ => syntaxError
        | _ => syntaxError
      | _ => syntaxError
    | _ => syntaxError
  | _ => syntaxError

end data

/-! ## server/server.go and server/tpl_funcs.go -/

/-- The Go struct `ConvertData`; `none` is the nil slice. -/
structure ConvertData where
  Data : Option Bytes
deriving DecidableEq, Repr

/-- The Go struct `ConvertArgs`; `none` is the nil pointer. -/
structure ConvertArgs where
  Fetcher : Option FetcherOptions
  Converter : Option ConvertOptions
  Template : String
deriving DecidableEq, Repr

/-- The Go struct `ConvertResponse`; the handler stores either nil or a
`ConvertData` in `Result`. -/
structure ConvertResponse where
  Code : Int
  Message : String
  Result : Option ConvertData
deriving DecidableEq, Repr

/-- The state of an `http.ResponseWriter`. -/
structure ResponseWriter where
  header : List (String × String)
  status : Option Int
  body : String
deriving DecidableEq, Repr

/-- Go `rw.Write`: the first write sends status 200 when none was sent. -/
def ResponseWriter.Write (rw : ResponseWriter) (data : String) : ResponseWriter :=
  { rw with status := some (rw.status.getD 200), body := rw.body ++ data }

/-- Go `rw.WriteHeader`: only the first status counts. -/
def ResponseWriter.WriteHeader (rw : ResponseWriter) (code : Int) : ResponseWriter :=
  { rw with status := some (rw.status.getD code) }

/-- Go `rw.Header().Set`. -/
def ResponseWriter.SetHeader (rw : ResponseWriter) (k v : String) : ResponseWriter :=
  { rw with header := headerSet rw.header k v }

/-- The Go struct `RespHelper`. -/
structure RespHelper where
  rw : ResponseWriter
  hold : Bool
deriving DecidableEq, Repr

/-- The Go function `newRespHelper`. -/
def newRespHelper (rw : ResponseWriter) : RespHelper :=
  { rw := rw, hold := false }

/-- The Go method `RespHelper.Holding`. -/
def RespHelper.Holding (p : RespHelper) : Bool := p.hold

/-- A successful call of a method of `RespHelper` made by a template, with its
arguments after `cast`. -/
inductive RespCall where
  | SetHeader (k v : String)
  | Hold (h : Bool)
  | Write (data : String)
  | WriteHeader (c : Int)
deriving DecidableEq, Repr

/-- The effect of one method call on the helper. -/
def RespHelper.call (p : RespHelper) : RespCall → RespHelper
  | .SetHeader k v => { p with rw := p.rw.SetHeader k v }
  | .Hold h => { p with hold := h }
  | .Write data => { p with rw := p.rw.Write data }
  | .WriteHeader c => { p with rw := p.rw.WriteHeader c }

/-- The Go struct `TemplateArgs` without the helper. -/
structure TemplateArgs where
  From : String
  To : String
  resp : ConvertResponse
deriving DecidableEq, Repr

/-- One execution of a template: the text emitted into the buffer, the helper
methods called in order, and the error of `Execute`. -/
structure Execution where
  out : String
  calls : List RespCall
  err : Option GoError
deriving DecidableEq, Repr

/-- A parsed `text/template`, by what its execution does. -/
abbrev Template := TemplateArgs → Execution

/-- Go `json.Marshal` of a `ConvertData`: a byte slice is written as a base64
string, a nil slice as `null`. -/
def jsonMarshalConvertData (d : ConvertData) : String :=
  match d.Data with
  | none => "\x7b\"data\":null\x7d"
  | some b => "\x7b\"data\":\"" ++ EncodeToString b ++ "\"\x7d"

/-- The Go function `jsonify` on a `ConvertData`. -/
def jsonify (d : ConvertData) : String × Option GoError :=
  (jsonMarshalConvertData d, none)

/-- The template parsed from `defaultTemplateText`:
`{"code":{{.Code}},"message":"{{.Message}}"{{if .Result}},"result":{{.Result|jsonify}}{{end}}}`.
A nil interface is false and a struct value is true under `if`; values are
printed as `fmt.Fprint` prints them. -/
def defaultTmpl : Template := fun args =>
  { out := "\x7b\"code\":" ++ toString args.resp.Code ++ ",\"message\":\""
      ++ args.resp.Message ++ "\""
      ++ (match args.resp.Result with
          | none => ""
          | some d => ",\"result\":" ++ (jsonify d).1)
      ++ "\x7d",
    calls := [],
    err := none }

/-- The server state read by the handler: the package variables `pdoc` and
`renderTmpls` and the environment of `pdoc`. -/
structure Server where
  sys : Sys
  pdoc : Pandoc
  renderTmpls : String → Option Template

/-- The Go function `writeResp`.  Reading `convertArgs.Converter.From` through a
nil pointer panics. -/
def writeResp (srv : Server) (rw : ResponseWriter) (convertArgs : ConvertArgs)
    (resp : ConvertResponse) : Outcome ResponseWriter :=
  let tmpl : Template :=
    if convertArgs.Template.length = 0 then defaultTmpl
    else
      match srv.renderTmpls convertArgs.Template with
      | some t => t
      | none => defaultTmpl
  let respHelper := newRespHelper rw
  match convertArgs.Converter with
  | none => .panicked "invalid memory address or nil pointer dereference"
  | some converter =>
    let args : TemplateArgs := { From := converter.From, To := converter.To, resp := resp }
    let exec := tmpl args
    let respHelper := exec.calls.foldl RespHelper.call respHelper
    if !respHelper.Holding then .returned (respHelper.rw.Write exec.out)
    else .returned respHelper.rw

/-- The Go function `handlePandocToX`; `decoded` is what `decoder.Decode(&args)`
leaves in `args` and the error it returns. -/
def handlePandocToX (srv : Server) (rw : ResponseWriter)
    (decoded : ConvertArgs × Option GoError) (w : World) : Outcome ResponseWriter × World :=
  let args := decoded.1
  match decoded.2 with
  | some err => (writeResp srv rw args ⟨400, err.msg, none⟩, w)
  | none =>
    match args.Converter, args.Fetcher with
    | none, _ => (writeResp srv rw args ⟨400, "converter options is nil", none⟩, w)
    | some _, none => (writeResp srv rw args ⟨400, "fetcher options is nil", none⟩, w)
    | some converter, some fetcher =>
      match Pandoc.Convert srv.sys srv.pdoc fetcher converter w with
      | ((_, some err), w) => (writeResp srv rw args ⟨400, err.msg, none⟩, w)
      | ((convData, none), w) => (writeResp srv rw args ⟨0, "", some ⟨convData⟩⟩, w)

/-! ### A concrete host for examples -/

/-- A host with no file, no process and no fetch so far. -/
def World.empty : World := { files := [], procs := [], fetches := [], uuids := 0 }

/-- A converter that writes two bytes to the file named after `--output` and then
exits with a failure status, having printed a diagnostic on standard error. -/
def failingConverter (_timeout : Nat) (_name : String) (args : List String) : ChildRun :=
  { stdinPipe := none, stdoutPipe := none, stderrPipe := none, start := none,
    pid := 100, descendants := [],
    writes := [(args.getLastD "", [60, 104])],
    resolved := .exited (some ⟨"exit status 64"⟩),
    stdout := [], stderr := "pandoc: unknown writer", outCopied := 0, errCopied := 22 }

/-- A converter that starts a helper process and is still running when the
timeout fires. -/
def hangingConverter (_timeout : Nat) (_name : String) (_args : List String) : ChildRun :=
  { stdinPipe := none, stdoutPipe := none, stderrPipe := none, start := none,
    pid := 100, descendants := [101],
    writes := [],
    resolved := .timeout,
    stdout := [], stderr := "", outCopied := 0, errCopied := 0 }

/-- A converter that writes `<p>hi</p>` to the file named after `--output` and
exits successfully. -/
def workingConverter (_timeout : Nat) (_name : String) (args : List String) : ChildRun :=
  { stdinPipe := none, stdoutPipe := none, stderrPipe := none, start := none,
    pid := 100, descendants := [],
    writes := [(args.getLastD "", [60, 112, 62, 104, 105, 60, 47, 112, 62])],
    resolved := .exited none,
    stdout := [], stderr := "", outCopied := 0, errCopied := 0 }

/-- A Unix-like host in which no library call fails; the command behaves as
`run` says. -/
def exampleSys (run : Nat → String → List String → ChildRun) : Sys where
  toCommandArgs := fun o _ _ _ _ => o.others
  tempDir := .ok "/tmp/go-pandoc1"
  pathJoin := fun a b => a ++ "/" ++ b
  uuid := fun n => if n = 0 then "in" else "out"
  writeFile := fun _ _ => none
  notExist := fun name => ⟨"open " ++ name ++ ": no such file or directory"⟩
  run := run

/-- A fetcher that hands back its parameter blob. -/
def echoFetcher : Fetcher where
  Fetch := fun params => (some params, none)

/-- A `Pandoc` with sandbox root `/safe`, a five-minute timeout and one fetcher
named `echo`. -/
def examplePandoc : Pandoc where
  timeout := 300000000000
  fetchers := fun name => if name = "echo" then some echoFetcher else none
  verbose := false
  trace := false
  dumpArgs := false
  ignoreArgs := false
  safeDir := "/safe"

/-- A server over `exampleSys` with no custom template. -/
def exampleServer (run : Nat → String → List String → ChildRun) : Server where
  sys := exampleSys run
  pdoc := examplePandoc
  renderTmpls := fun _ => none

/-- A response writer on which nothing was written. -/
def ResponseWriter.fresh : ResponseWriter := { header := [], status := none, body := "" }

/-- A command that prints `execute timeout` on standard error and exits with a
failure status well before the timeout. -/
def misleadingRun : ChildRun :=
  { stdinPipe := none, stdoutPipe := none, stderrPipe := none, start := none,
    pid := 100, descendants := [],
    writes := [],
    resolved := .exited (some ⟨"exit status 1"⟩),
    stdout := [], stderr := "execute timeout", outCopied := 0, errCopied := 15 }

/-- A command that prints `ok` on standard output, a warning on standard error,
and exits successfully. -/
def quietRun : ChildRun :=
  { stdinPipe := none, stdoutPipe := none, stderrPipe := none, start := none,
    pid := 100, descendants := [],
    writes := [],
    resolved := .exited none,
    stdout := [111, 107], stderr := "warning", outCopied := 2, errCopied := 7 }

/-- The command of `quietRun`, read before the goroutine that copies its
standard output has moved anything. -/
def hastyRun : ChildRun := { quietRun with outCopied := 0 }

/-- A network in which every request is answered with status `code` and the
body `doc`; no library call fails and no substitution changes the body. -/
def exampleHttpEnv (code : Int) : HttpEnv where
  unmarshal := fun _ => .ok ⟨"", "GET", [], [], []⟩
  newRequest := fun _ _ => none
  roundTrip := fun _ => .ok ⟨code, [100, 111, 99], none⟩
  replaceAll := fun d _ _ => d
  unicodeToUpper := Char.toUpper

/-! ### Notions used to state the later results -/

/-- The result of the call number `n + 1` of `Path` on a resolver, the calls
being made one after the other. -/
def File.PathRepeated (env : FileEnv) : Nat → File → FileWorld →
    File × FileWorld × Outcome (String × Option GoError)
  | 0, p, w => File.Path env p w
  | n + 1, p, w => File.PathRepeated env n (File.Path env p w).1 (File.Path env p w).2.1

/-- The template `writeResp` selects: the default one when no name is given or
the name is not registered. -/
def selectedTmpl (srv : Server) (convertArgs : ConvertArgs) : Template :=
  if convertArgs.Template.length = 0 then defaultTmpl
  else
    match srv.renderTmpls convertArgs.Template with
    | some t => t
    | none => defaultTmpl

/-- The hold flag after the calls of a template: the argument of the last call
of `Hold`, and `h` when there was none. -/
def holdAfter (h : Bool) : List RespCall → Bool
  | [] => h
  | .Hold v :: cs => holdAfter v cs
  | _ :: cs => holdAfter h cs

/-- The response after the calls a template made on the response-control
object. -/
def responseAfter (rw : ResponseWriter) : List RespCall → ResponseWriter
  | [] => rw
  | .SetHeader k v :: cs => responseAfter (rw.SetHeader k v) cs
  | .Write data :: cs => responseAfter (rw.Write data) cs
  | .WriteHeader c :: cs => responseAfter (rw.WriteHeader c) cs
  | .Hold _ :: cs => responseAfter rw cs

/-- A template such as `{{$a := .Response.Hold true}}{{$b := .Response.Hold false}}done`:
it sets the hold flag, clears it again and emits the text `done`. -/
def toggleTmpl : Template := fun _ =>
  { out := "done", calls := [.Hold true, .Hold false], err := none }

/-- A template such as `{{$a := .Response.Hold true}}{{$b := .Response.Write (toBytes .Message)}}ignored`:
it holds the response, writes the message itself and emits the text `ignored`;
its execution ends with an error. -/
def manualTmpl : Template := fun args =>
  { out := "ignored", calls := [.Hold true, .Write args.resp.Message],
    err := some ⟨"template: manual: execution failed"⟩ }

/-- A server over `exampleSys` with the templates `toggle` and `manual`. -/
def templateServer : Server where
  sys := exampleSys workingConverter
  pdoc := examplePandoc
  renderTmpls := fun name =>
    if name = "toggle" then some toggleTmpl
    else if name = "manual" then some manualTmpl
    else none

/-- A JSON string as RFC 8259 reads it, from the symbol after the opening quote:
the decoded text up to the closing quote and the input after that quote.  A
backslash escapes the next symbol; a raw control character is not allowed;
`\u` escapes are not read. -/
def jsonString : List Char → Option (List Char × List Char)
  | [] => none
  | '"' :: rest => some ([], rest)
  | '\\' :: c :: rest =>
    let decoded : Option Char :=
      if c = '"' ∨ c = '\\' ∨ c = '/' then some c
      else if c = 'n' then some '\n'
      else if c = 'r' then some '\r'
      else if c = 't' then some '\t'
      else if c = 'b' then some (Char.ofNat 8)
      else if c = 'f' then some (Char.ofNat 12)
      else none
    match decoded, jsonString rest with
    | some d, some r => some (d :: r.1, r.2)
    | _, _ => none
  | c :: rest =>
    if c.toNat < 32 then none
    else (jsonString rest).map (fun r => (c :: r.1, r.2))

/-! # Theorems -/

/-! ## The sandbox check of `File.Path` -/

theorem HasPrefix_iff (s p : String) : HasPrefix s p = true ↔ p.data <+: s.data := by
  unfold HasPrefix
  exact List.isPrefixOf_iff_prefix

/-- What `File.Path` returns on a fresh resolver whose URL parses to a local
reference. -/
theorem Path_local (env : FileEnv) (url R pfx : String) (w : FileWorld) (u : URL)
    (hne : url ≠ "") (hparse : env.urlParse url = .ok u)
    (hscheme : u.Scheme = "" ∨ u.Scheme = "file") :
    (File.Path env (File.new url R pfx) w).2.2 =
      if HasPrefix u.Path R then .returned (u.Path, none)
      else .returned ("", some ⟨"file path is not in safe dir"⟩) := by
  have hlen : url.length ≠ 0 := by
    intro h
    exact hne (String.ext (List.length_eq_zero.mp h))
  have h1 : ¬ (u.Scheme = "http" ∨ u.Scheme = "https") := by
    rcases hscheme with h | h <;> rw [h] <;> decide
  have h2 : ¬ (u.Scheme = "data") := by
    rcases hscheme with h | h <;> rw [h] <;> decide
  have h3 : u.Scheme = "file" ∨ u.Scheme = "" := hscheme.symm
  simp only [File.Path, File.new, hlen, hparse, h1, h2, h3]
  cases HasPrefix u.Path R <;> simp

/-- C1: for every sandbox root `R` and every non-empty URI that parses to a URL
with empty or `file` scheme and path `P`, `File.Path` on a fresh resolver returns
`(P, nil)` if and only if `R` is a literal prefix of `P`, and otherwise returns
the empty path with the error `file path is not in safe dir`. -/
theorem C1_Path_accepts_iff_literal_prefix (env : FileEnv) (url R pfx : String)
    (w : FileWorld) (u : URL) (hne : url ≠ "") (hparse : env.urlParse url = .ok u)
    (hscheme : u.Scheme = "" ∨ u.Scheme = "file") :
    ((File.Path env (File.new url R pfx) w).2.2 = .returned (u.Path, none)
        ↔ R.data <+: u.Path.data) ∧
    (¬ R.data <+: u.Path.data →
      (File.Path env (File.new url R pfx) w).2.2 =
        .returned ("", some ⟨"file path is not in safe dir"⟩)) := by
  rw [Path_local env url R pfx w u hne hparse hscheme, ← HasPrefix_iff]
  cases h : HasPrefix u.Path R <;> simp

/-- C1, instance: `/safe/a.md` lies under `/safe` and is returned unchanged. -/
theorem C1_Path_accepts_iff_literal_prefix_witness :
    ((File.Path exampleEnv (File.new "/safe/a.md" "/safe" "t") FileWorld.empty).2.2
        = .returned ("/safe/a.md", none)
        ↔ "/safe".data <+: "/safe/a.md".data) ∧
    (¬ "/safe".data <+: "/safe/a.md".data →
      (File.Path exampleEnv (File.new "/safe/a.md" "/safe" "t") FileWorld.empty).2.2 =
        .returned ("", some ⟨"file path is not in safe dir"⟩)) :=
  C1_Path_accepts_iff_literal_prefix exampleEnv "/safe/a.md" "/safe" "t" FileWorld.empty
    ⟨"", "/safe/a.md"⟩ (by decide) rfl (by decide)

/-- C2: the reference `/safe/../etc/passwd`, whose cleaned form `/etc/passwd`
does not lie under the sandbox root `/safe`, is accepted by `File.Path` and
returned unchanged with no error. -/
theorem C2_Path_accepts_dotdot_escape :
    Clean "/safe/../etc/passwd" = "/etc/passwd" ∧
    HasPrefix (Clean "/safe/../etc/passwd") "/safe" = false ∧
    (File.Path exampleEnv (File.new "/safe/../etc/passwd" "/safe" "t") FileWorld.empty).2.2
      = .returned ("/safe/../etc/passwd", none) := by
  refine ⟨by decide, by decide, by decide⟩

/-! ## The orchestrator -/

/-- C3: when `DataDir` is non-empty and the sandbox root is not a literal prefix
of it, `Convert` returns the `DataDir` error and leaves the host as it was: no
fetcher was invoked and no file was created. -/
theorem C3_Convert_rejects_DataDir_before_fetch (sys : Sys) (p : Pandoc)
    (fetcherOpts : FetcherOptions) (convertOpts : ConvertOptions) (w : World)
    (hne : convertOpts.DataDir ≠ "")
    (hout : ¬ p.safeDir.data <+: convertOpts.DataDir.data) :
    (Pandoc.Convert sys p fetcherOpts convertOpts w).1 =
      (none, some ⟨"DataDir: '" ++ convertOpts.DataDir ++ "' is not is safe dir: '"
        ++ p.safeDir ++ "'"⟩) ∧
    (Pandoc.Convert sys p fetcherOpts convertOpts w).2 = w ∧
    (Pandoc.Convert sys p fetcherOpts convertOpts w).2.fetches = w.fetches ∧
    (Pandoc.Convert sys p fetcherOpts convertOpts w).2.files = w.files := by
  have hlen : convertOpts.DataDir.length > 0 := by
    rcases Nat.eq_zero_or_pos convertOpts.DataDir.length with h | h
    · exact absurd (String.ext (List.length_eq_zero.mp h)) hne
    · exact h
  have hpre : HasPrefix convertOpts.DataDir p.safeDir = false := by
    cases h : HasPrefix convertOpts.DataDir p.safeDir
    · rfl
    · exact absurd ((HasPrefix_iff _ _).mp h) hout
  simp [Pandoc.Convert, hlen, hpre]

/-- C3, instance: a data directory `/etc` outside the sandbox root `/safe`. -/
theorem C3_Convert_rejects_DataDir_before_fetch_witness :
    (Pandoc.Convert (exampleSys workingConverter) examplePandoc ⟨"echo", [1]⟩
        ⟨"markdown", "html", "/etc", []⟩ World.empty).1 =
      (none, some ⟨"DataDir: '" ++ "/etc" ++ "' is not is safe dir: '" ++ "/safe" ++ "'"⟩) ∧
    (Pandoc.Convert (exampleSys workingConverter) examplePandoc ⟨"echo", [1]⟩
        ⟨"markdown", "html", "/etc", []⟩ World.empty).2 = World.empty ∧
    (Pandoc.Convert (exampleSys workingConverter) examplePandoc ⟨"echo", [1]⟩
        ⟨"markdown", "html", "/etc", []⟩ World.empty).2.fetches = World.empty.fetches ∧
    (Pandoc.Convert (exampleSys workingConverter) examplePandoc ⟨"echo", [1]⟩
        ⟨"markdown", "html", "/etc", []⟩ World.empty).2.files = World.empty.files :=
  C3_Convert_rejects_DataDir_before_fetch (exampleSys workingConverter) examplePandoc
    ⟨"echo", [1]⟩ ⟨"markdown", "html", "/etc", []⟩ World.empty (by decide) (by decide)

/-- C4: a converter that creates the output file and then exits with a failure
status: `Convert` returns the captured diagnostic as its error and removes the
staged input file, but the output file is still on disk when it returns. -/
theorem C4_Convert_leaves_output_of_failed_converter :
    (Pandoc.Convert (exampleSys failingConverter) examplePandoc ⟨"echo", [35, 32, 104]⟩
        ⟨"markdown", "html", "", []⟩ World.empty).1
      = (none, some ⟨"pandoc: unknown writer"⟩) ∧
    (Pandoc.Convert (exampleSys failingConverter) examplePandoc ⟨"echo", [35, 32, 104]⟩
        ⟨"markdown", "html", "", []⟩ World.empty).2.files
      = [("/tmp/go-pandoc1/out.html", [60, 104])] := by
  decide

/-- C5: a request body with a `fetcher` block and no `converter` block: the
handler panics inside `writeResp` and nothing is written to the response.  (A
body with a `converter` block and no `fetcher` block is answered with the
templated 400 error.) -/
theorem C5_handler_panics_without_converter :
    handlePandocToX (exampleServer workingConverter) ResponseWriter.fresh
        (⟨some ⟨"echo", [1]⟩, none, ""⟩, none) World.empty
      = (.panicked "invalid memory address or nil pointer dereference", World.empty) ∧
    handlePandocToX (exampleServer workingConverter) ResponseWriter.fresh
        (⟨none, some ⟨"markdown", "html", "", []⟩, ""⟩, none) World.empty
      = (.returned ⟨[], some 200,
          "\x7b\"code\":400,\"message\":\"fetcher options is nil\"\x7d"⟩, World.empty) := by
  decide

/-! ## Base64 -/

theorem b64Val_b64Char (n : Nat) : b64Val (b64Char n) = some (n % 64) := by
  have h : ∀ k : Fin 64, b64Val (encodeStd.getD k.val 'A') = some k.val := by decide
  exact h ⟨n % 64, Nat.mod_lt _ (by decide)⟩

theorem b64Char_plain (n : Nat) :
    b64Char n ≠ '=' ∧ b64Char n ≠ '\n' ∧ b64Char n ≠ '\r' := by
  have h : ∀ k : Fin 64, encodeStd.getD k.val 'A' ≠ '=' ∧ encodeStd.getD k.val 'A' ≠ '\n'
      ∧ encodeStd.getD k.val 'A' ≠ '\r' := by decide
  exact h ⟨n % 64, Nat.mod_lt _ (by decide)⟩

/-- Decoding the quanta produced by the encoder gives the bytes back. -/
theorem decodeQuanta_EncodeChars (b : Bytes) : decodeQuanta (EncodeChars b) = some b := by
  induction b using EncodeChars.induct with
  | case1 => rfl
  | case2 a =>
    simp only [EncodeChars, decodeQuanta, b64Val_b64Char]
    simp [toByte]
    apply Fin.ext
    simp
    omega
  | case3 a b =>
    simp only [EncodeChars, decodeQuanta, b64Val_b64Char]
    simp [toByte, (b64Char_plain _).1]
    constructor <;> (apply Fin.ext; simp; omega)
  | case4 a b c rest ih =>
    simp only [EncodeChars, decodeQuanta, b64Val_b64Char]
    simp [toByte, (b64Char_plain _).1, ih]
    refine ⟨?_, ?_, ?_⟩ <;> (apply Fin.ext; simp; omega)

/-- The encoder emits no line break, so the decoder skips nothing. -/
theorem filter_EncodeChars (b : Bytes) :
    (EncodeChars b).filter (fun c => c != '\n' && c != '\r') = EncodeChars b := by
  induction b using EncodeChars.induct with
  | case1 => rfl
  | case2 a =>
    simp [EncodeChars, List.filter_cons, (b64Char_plain _).2.1, (b64Char_plain _).2.2]
  | case3 a b =>
    simp [EncodeChars, List.filter_cons, (b64Char_plain _).2.1, (b64Char_plain _).2.2]
  | case4 a b c rest ih =>
    simp [EncodeChars, List.filter_cons, (b64Char_plain _).2.1, (b64Char_plain _).2.2, ih]

/-- Base64 round trip: `DecodeString (EncodeToString b) = b`. -/
theorem DecodeString_EncodeToString (b : Bytes) : DecodeString (EncodeToString b) = some b := by
  unfold DecodeString EncodeToString
  simp only [filter_EncodeChars]
  exact decodeQuanta_EncodeChars b

/-! ## The handler -/

/-- A conversion that returns no error returns a non-nil byte slice. -/
theorem Convert_success_some (sys : Sys) (p : Pandoc) (fetcherOpts : FetcherOptions)
    (convertOpts : ConvertOptions) (w : World)
    (h : (Pandoc.Convert sys p fetcherOpts convertOpts w).1.2 = none) :
    ∃ b, (Pandoc.Convert sys p fetcherOpts convertOpts w).1.1 = some b := by
  revert h
  unfold Pandoc.Convert
  dsimp only
  repeat' split
  all_goals simp

/-- C6: when the conversion succeeds and the request selects no custom template
(the name is empty or not registered), the conversion returned some bytes `b`,
the handler returns normally, what it writes to the response is exactly
`{"code":0,"message":"","result":{"data":"<B>"}}` with `<B>` the standard base64
encoding of `b`, and decoding `<B>` gives `b` back. -/
theorem C6_success_body_default_template (srv : Server) (rw : ResponseWriter)
    (args : ConvertArgs) (fetcher : FetcherOptions) (converter : ConvertOptions) (w : World)
    (hfetch : args.Fetcher = some fetcher) (hconv : args.Converter = some converter)
    (htmpl : args.Template = "" ∨ srv.renderTmpls args.Template = none)
    (hok : (Pandoc.Convert srv.sys srv.pdoc fetcher converter w).1.2 = none) :
    ∃ b, (Pandoc.Convert srv.sys srv.pdoc fetcher converter w).1.1 = some b ∧
      (handlePandocToX srv rw (args, none) w).1 =
        .returned (rw.Write ("\x7b\"code\":0,\"message\":\"\",\"result\":\x7b\"data\":\""
          ++ EncodeToString b ++ "\"\x7d\x7d")) ∧
      (rw.Write ("\x7b\"code\":0,\"message\":\"\",\"result\":\x7b\"data\":\""
          ++ EncodeToString b ++ "\"\x7d\x7d")).body =
        rw.body ++ ("\x7b\"code\":0,\"message\":\"\",\"result\":\x7b\"data\":\""
          ++ EncodeToString b ++ "\"\x7d\x7d") ∧
      DecodeString (EncodeToString b) = some b := by
  obtain ⟨b, hb⟩ := Convert_success_some srv.sys srv.pdoc fetcher converter w hok
  refine ⟨b, hb, ?_, rfl, DecodeString_EncodeToString b⟩
  have hC : Pandoc.Convert srv.sys srv.pdoc fetcher converter w =
      ((some b, none), (Pandoc.Convert srv.sys srv.pdoc fetcher converter w).2) := by
    rw [← hb, ← hok]
  have htext : (defaultTmpl ⟨converter.From, converter.To, ⟨0, "", some ⟨some b⟩⟩⟩).out =
      "\x7b\"code\":0,\"message\":\"\",\"result\":\x7b\"data\":\""
          ++ EncodeToString b ++ "\"\x7d\x7d" := by
    apply String.ext
    simp [defaultTmpl, jsonify, jsonMarshalConvertData, String.data_append]
    rfl
  have hW : writeResp srv rw args ⟨0, "", some ⟨some b⟩⟩ =
      .returned (rw.Write ("\x7b\"code\":0,\"message\":\"\",\"result\":\x7b\"data\":\""
          ++ EncodeToString b ++ "\"\x7d\x7d")) := by
    rw [← htext]
    rcases htmpl with h | h
    · simp [writeResp, h, hconv, newRespHelper, RespHelper.Holding]
      rfl
    · by_cases hl : args.Template.length = 0
      · simp [writeResp, hl, hconv, newRespHelper, RespHelper.Holding]
        rfl
      · simp [writeResp, hl, h, hconv, newRespHelper, RespHelper.Holding]
        rfl
  unfold handlePandocToX
  simp only [hconv, hfetch]
  rw [hC]
  exact hW

/-- C6, instance: the converter output `<p>hi</p>` is answered as base64. -/
theorem C6_success_body_default_template_witness :
    ∃ b, (Pandoc.Convert (exampleServer workingConverter).sys (exampleServer workingConverter).pdoc
        ⟨"echo", [35]⟩ ⟨"markdown", "html", "", []⟩ World.empty).1.1 = some b ∧
      (handlePandocToX (exampleServer workingConverter) ResponseWriter.fresh
        (⟨some ⟨"echo", [35]⟩, some ⟨"markdown", "html", "", []⟩, ""⟩, none) World.empty).1 =
        .returned (ResponseWriter.fresh.Write
          ("\x7b\"code\":0,\"message\":\"\",\"result\":\x7b\"data\":\""
          ++ EncodeToString b ++ "\"\x7d\x7d")) ∧
      (ResponseWriter.fresh.Write
          ("\x7b\"code\":0,\"message\":\"\",\"result\":\x7b\"data\":\""
          ++ EncodeToString b ++ "\"\x7d\x7d")).body =
        ResponseWriter.fresh.body ++
          ("\x7b\"code\":0,\"message\":\"\",\"result\":\x7b\"data\":\""
          ++ EncodeToString b ++ "\"\x7d\x7d") ∧
      DecodeString (EncodeToString b) = some b :=
  C6_success_body_default_template (exampleServer workingConverter) ResponseWriter.fresh
    ⟨some ⟨"echo", [35]⟩, some ⟨"markdown", "html", "", []⟩, ""⟩
    ⟨"echo", [35]⟩ ⟨"markdown", "html", "", []⟩ World.empty rfl rfl (Or.inl rfl) (by decide)

/-! ## The process runner -/

/-- What `execCommand` returns once the command was started. -/
theorem execCommand_started (run : ChildRun) (w : World) (h : run.spawnError = none) :
    (execCommand run w).1 =
      match run.resolved with
      | .timeout => (none, some ⟨"execute timeout"⟩)
      | .exited (some _) => (none, some ⟨run.errBuf⟩)
      | .exited none => (if run.outBuf.length > 0 then some run.outBuf else none, none) := by
  unfold ChildRun.spawnError at h
  unfold execCommand
  split at h <;> try (simp at h)
  rename_i h1 h2 h3
  simp only [h1, h2, h3, h]
  rcases hr : run.resolved with e | _
  · cases e <;> simp
    split <;> simp
  · simp

/-- What `execCommand` returns when a spawn step fails. -/
theorem execCommand_spawn_failure (run : ChildRun) (w : World) (f : SpawnFailure)
    (h : run.spawnError = some f) : execCommand run w = ((none, some f.error), w) := by
  unfold ChildRun.spawnError at h
  unfold execCommand
  split at h
  all_goals simp_all

/-- Once the copying goroutine has moved everything, `outBuf` holds what the
process wrote to standard output. -/
theorem outBuf_of_drained (run : ChildRun) (h : run.outDrained) : run.outBuf = run.stdout :=
  List.take_of_length_le h

/-- Once the copying goroutine has moved everything, `errBuf` holds what the
process wrote to standard error. -/
theorem errBuf_of_drained (run : ChildRun) (h : run.errDrained) : run.errBuf = run.stderr :=
  String.ext (List.take_of_length_le h)

/-- The message of a spawn failure holds a colon, the timeout message none. -/
theorem spawn_failure_ne_timeout (f : SpawnFailure) : f.error ≠ ⟨"execute timeout"⟩ := by
  intro h
  have hmem : ':' ∈ f.error.msg.data := by
    cases f <;> simp [SpawnFailure.error, String.data_append]
  rw [h] at hmem
  revert hmem
  decide

/-- The buffers are read without waiting for the copying goroutines: a command
that printed `ok` and exited successfully, read before anything was copied,
returns no bytes at all. -/
theorem execCommand_may_lose_output :
    hastyRun.stdout = [111, 107] ∧ hastyRun.resolved = .exited none ∧
    (execCommand hastyRun World.empty).1 = (none, none) := by
  decide

/-- C7 as stated fails: a command that exits with a failure status after printing
`execute timeout` on standard error yields the very result and error of a run
that timed out. -/
theorem C7_timeout_error_not_distinguishable :
    misleadingRun.resolved = .exited (some ⟨"exit status 1"⟩) ∧
    (hangingConverter 1000 "pandoc" []).resolved = .timeout ∧
    (execCommand misleadingRun World.empty).1 =
      (execCommand (hangingConverter 1000 "pandoc" []) World.empty).1 := by
  decide

/-- C7, amended: for every run of `execCommand`, classified by which event
resolves first: a failing spawn step returns its own error; if the process exits
successfully no error is returned, and the bytes it wrote to standard output are
returned when the copying goroutine has moved them all before the buffer is
read; if it exits with a failure status and the goroutine copying standard error
has moved everything before the buffer is read, the error message is exactly the
text the process wrote to standard error; if the timeout fires first the error
is `execute timeout`.  The timeout error differs from the error of every spawn
failure, and from the error of such a failed execution exactly when the text
written to standard error is not `execute timeout`. -/
theorem C7_execCommand_outcomes (run : ChildRun) (w : World) :
    (∀ f, run.spawnError = some f → (execCommand run w).1 = (none, some f.error)) ∧
    (run.spawnError = none → run.resolved = .exited none →
      (execCommand run w).1.2 = none ∧
      (run.outDrained → (execCommand run w).1.1.getD [] = run.stdout)) ∧
    (∀ e, run.spawnError = none → run.resolved = .exited (some e) → run.errDrained →
      (execCommand run w).1 = (none, some ⟨run.stderr⟩)) ∧
    (run.spawnError = none → run.resolved = .timeout →
      (execCommand run w).1 = (none, some ⟨"execute timeout"⟩)) ∧
    (∀ f, run.spawnError = some f →
      (execCommand run w).1.2 ≠ some ⟨"execute timeout"⟩) ∧
    (∀ e, run.spawnError = none → run.resolved = .exited (some e) → run.errDrained →
      ((execCommand run w).1.2 ≠ some ⟨"execute timeout"⟩ ↔ run.stderr ≠ "execute timeout")) := by
  refine ⟨?_, ?_, ?_, ?_, ?_, ?_⟩
  · intro f h
    rw [execCommand_spawn_failure run w f h]
  · intro h hr
    rw [execCommand_started run w h, hr]
    refine ⟨rfl, ?_⟩
    intro hd
    rw [outBuf_of_drained run hd]
    by_cases hl : run.stdout.length > 0
    · simp [hl]
    · have : run.stdout = [] := List.length_eq_zero.mp (by omega)
      simp [this]
  · intro e h hr hd
    rw [execCommand_started run w h, hr, errBuf_of_drained run hd]
  · intro h hr
    rw [execCommand_started run w h, hr]
  · intro f h
    rw [execCommand_spawn_failure run w f h]
    intro heq
    exact spawn_failure_ne_timeout f (Option.some.inj heq)
  · intro e h hr hd
    rw [execCommand_started run w h, hr, errBuf_of_drained run hd]
    simp

/-- C7, instance: a successful run, read after the copy is complete, returns its
standard output with no error. -/
theorem C7_execCommand_outcomes_witness :
    (execCommand quietRun World.empty).1.1.getD [] = quietRun.stdout ∧
      (execCommand quietRun World.empty).1.2 = none :=
  ⟨((C7_execCommand_outcomes quietRun World.empty).2.1 (by decide) (by decide)).2
      (by unfold ChildRun.outDrained; decide),
   ((C7_execCommand_outcomes quietRun World.empty).2.1 (by decide) (by decide)).1⟩

/-- C8: a child that has spawned a helper process and is still running when the
timeout fires: `execCommand` returns the timeout error, the child is killed, and
the helper (process 101 of the child's process group 100) is still running. -/
theorem C8_timeout_kills_only_the_child :
    execCommand (hangingConverter 1000 "pandoc" []) World.empty =
      ((none, some ⟨"execute timeout"⟩),
        { files := [], procs := [⟨101, 100⟩], fetches := [], uuids := 0 }) := by
  decide

/-! ## The Remote-HTTP fetcher -/

/-- What `send` returns once the request was built and answered. -/
theorem send_answered (env : HttpEnv) (params : Params) (resp : Response)
    (hreq : env.newRequest params.Method params.URL = none)
    (hdo : env.roundTrip (buildRequest params) = .ok resp) :
    (HttpFetcher.send env params).1 =
      if resp.StatusCode ≠ 200 then
        (none, some ⟨"[fetcher-http]: fetch url by " ++ params.Method ++ " failure <"
          ++ params.URL ++ ">, status code is " ++ toString resp.StatusCode⟩)
      else
        (some (params.Replace.foldl (fun d kv => env.replaceAll d kv.1 kv.2) resp.body),
          resp.readErr) := by
  unfold HttpFetcher.send
  simp only [hreq, hdo]
  split <;> rfl

/-- C9 as stated fails: a response with status 204, which lies in the 2xx range,
makes `send` fail with the status error. -/
theorem C9_send_fails_on_204 :
    (200 : Int) ≤ 204 ∧ (204 : Int) ≤ 299 ∧
    (HttpFetcher.send (exampleHttpEnv 204)
        ⟨"http://example.com/doc.md", "GET", [], [], []⟩).1 =
      (none, some ⟨"[fetcher-http]: fetch url by GET failure <http://example.com/doc.md>, "
        ++ "status code is 204"⟩) := by
  decide

/-- C9, amended: for every request that `send` builds and the client answers
with status code `s`, `send` fails with the status error if and only if `s` is
not 200; the message of that error contains the request method, the URL and the
decimal status code; and when `s` is 200 the data is the body after the
substitutions and the only possible error is that of reading the body. -/
theorem C9_send_fails_iff_status_not_200 (env : HttpEnv) (params : Params) (resp : Response)
    (hreq : env.newRequest params.Method params.URL = none)
    (hdo : env.roundTrip (buildRequest params) = .ok resp) :
    ((HttpFetcher.send env params).1 =
        (none, some ⟨"[fetcher-http]: fetch url by " ++ params.Method ++ " failure <"
          ++ params.URL ++ ">, status code is " ++ toString resp.StatusCode⟩)
      ↔ resp.StatusCode ≠ 200) ∧
    (params.Method.data <:+: ("[fetcher-http]: fetch url by " ++ params.Method
        ++ " failure <" ++ params.URL ++ ">, status code is "
        ++ toString resp.StatusCode).data ∧
      params.URL.data <:+: ("[fetcher-http]: fetch url by " ++ params.Method
        ++ " failure <" ++ params.URL ++ ">, status code is "
        ++ toString resp.StatusCode).data ∧
      (toString resp.StatusCode).data <:+: ("[fetcher-http]: fetch url by " ++ params.Method
        ++ " failure <" ++ params.URL ++ ">, status code is "
        ++ toString resp.StatusCode).data) ∧
    (resp.StatusCode = 200 →
      (HttpFetcher.send env params).1 =
        (some (params.Replace.foldl (fun d kv => env.replaceAll d kv.1 kv.2) resp.body),
          resp.readErr)) := by
  rw [send_answered env params resp hreq hdo]
  refine ⟨?_, ⟨?_, ?_, ?_⟩, ?_⟩
  · by_cases h : resp.StatusCode = 200 <;> simp [h]
  · refine ⟨"[fetcher-http]: fetch url by ".data,
      (" failure <" ++ params.URL ++ ">, status code is " ++ toString resp.StatusCode).data, ?_⟩
    simp [String.data_append]
  · refine ⟨("[fetcher-http]: fetch url by " ++ params.Method ++ " failure <").data,
      (">, status code is " ++ toString resp.StatusCode).data, ?_⟩
    simp [String.data_append]
  · refine ⟨("[fetcher-http]: fetch url by " ++ params.Method ++ " failure <"
      ++ params.URL ++ ">, status code is ").data, [], ?_⟩
    simp [String.data_append]
  · intro h
    simp [h]

/-- C9, instance: a 404 on a GET. -/
theorem C9_send_fails_iff_status_not_200_witness :
    (HttpFetcher.send (exampleHttpEnv 404) ⟨"http://example.com/doc.md", "GET", [], [], []⟩).1 =
      (none, some ⟨"[fetcher-http]: fetch url by " ++ "GET" ++ " failure <"
        ++ "http://example.com/doc.md" ++ ">, status code is " ++ toString (404 : Int)⟩) :=
  ((C9_send_fails_iff_status_not_200 (exampleHttpEnv 404)
    ⟨"http://example.com/doc.md", "GET", [], [], []⟩ ⟨404, [100, 111, 99], none⟩
    rfl rfl).1).mpr (by decide)

/-- The upper-cased method is empty exactly when the method is. -/
theorem ToUpper_eq_empty (upper : Char → Char) (s : String) :
    ToUpper upper s = "" ↔ s = "" := by
  constructor
  · intro h
    have h2 : (ToUpper upper s).data = [] := by rw [h]
    apply String.ext
    simpa [ToUpper] using h2
  · intro h
    subst h
    rfl

/-- C10: `Validation` succeeds if and only if the URL is non-empty and the
upper-cased method is empty, `GET` or `POST`; after a successful validation the
method is `GET` when it was empty and the upper-cased method otherwise, hence
`GET` or `POST`; and `Fetch` on a blob that decodes to parameters with an empty
URL returns the url-is-empty error and issues no HTTP request. -/
theorem C10_Validation_and_empty_url (upper : Char → Char) (p : Params) :
    ((Params.Validation upper p).2 = none ↔
      p.URL ≠ "" ∧ (ToUpper upper p.Method = "" ∨ ToUpper upper p.Method = "GET"
        ∨ ToUpper upper p.Method = "POST")) ∧
    ((Params.Validation upper p).2 = none →
      ((Params.Validation upper p).1.Method = "GET"
        ∨ (Params.Validation upper p).1.Method = "POST") ∧
      (Params.Validation upper p).1.Method =
        (if p.Method = "" then "GET" else ToUpper upper p.Method)) ∧
    (∀ (env : HttpEnv) (blob : Bytes), env.unmarshal blob = .ok p → p.URL = "" →
      HttpFetcher.Fetch env blob =
        ((none, some ⟨"[fetcher-http]: params of url is empty"⟩), [])) := by
  have hlen : ∀ s : String, s.length = 0 ↔ s = "" := fun s =>
    ⟨fun h => String.ext (List.length_eq_zero.mp h), fun h => by subst h; rfl⟩
  refine ⟨?_, ?_, ?_⟩
  · unfold Params.Validation
    by_cases hu : p.URL = ""
    · simp [hu]
    · by_cases hm : ToUpper upper p.Method = ""
      · simp [hlen, hu, hm]
      · by_cases hg : ToUpper upper p.Method = "GET"
        · simp [hlen, hu, hm, hg]
        · by_cases hp : ToUpper upper p.Method = "POST"
          · simp [hlen, hu, hm, hp]
          · simp [hlen, hu, hm, hg, hp]
  · unfold Params.Validation
    by_cases hu : p.URL = ""
    · simp [hu]
    · by_cases hm : p.Method = ""
      · have hE : ToUpper upper "" = "" := rfl
        simp [hlen, hu, hm, hE]
      · have hm2 : ToUpper upper p.Method ≠ "" :=
          fun h => hm ((ToUpper_eq_empty upper p.Method).mp h)
        by_cases hg : ToUpper upper p.Method = "GET"
        · simp [hlen, hu, hm, hm2, hg]
        · by_cases hp : ToUpper upper p.Method = "POST"
          · simp [hlen, hu, hm, hm2, hp]
          · simp [hlen, hu, hm, hm2, hg, hp]
  · intro env blob hb hu
    unfold HttpFetcher.Fetch Params.Validation
    simp [hb, hu]

/-- C10, instance: the method `post` is normalised to `POST`, and the blob of the
example network, which decodes to an empty URL, is refused without a request. -/
theorem C10_Validation_and_empty_url_witness :
    ((Params.Validation Char.toUpper ⟨"http://example.com/a", "post", [], [], []⟩).1.Method
        = "GET" ∨
      (Params.Validation Char.toUpper ⟨"http://example.com/a", "post", [], [], []⟩).1.Method
        = "POST") ∧
    HttpFetcher.Fetch (exampleHttpEnv 200) [123, 125] =
      ((none, some ⟨"[fetcher-http]: params of url is empty"⟩), []) :=
  ⟨((C10_Validation_and_empty_url Char.toUpper
      ⟨"http://example.com/a", "post", [], [], []⟩).2.1 (by decide)).1,
   (C10_Validation_and_empty_url Char.toUpper ⟨"", "GET", [], [], []⟩).2.2
      (exampleHttpEnv 200) [123, 125] rfl rfl⟩

/-! ## The inline fetcher -/

/-- C11: for every parameter blob that decodes to a payload `d`, `Fetch` returns
exactly `d` with no error when `d` is non-empty and fails with the error
`params of data is empty` when `d` is empty; and the blob
`{"data": "aGVsbG8="}` yields the bytes of `hello`. -/
theorem C11_DataFetcher_passes_payload_through
    (unmarshal : Bytes → Except GoError data.Params) (blob d : Bytes)
    (hdec : unmarshal blob = .ok ⟨d⟩) :
    (d ≠ [] → data.DataFetcher.Fetch unmarshal blob = (some d, none)) ∧
    (d = [] → data.DataFetcher.Fetch unmarshal blob =
      (none, some ⟨"[fetcher-data]: params of data is empty"⟩)) ∧
    data.DataFetcher.Fetch data.exampleUnmarshal
        (data.bytesOf "\x7b\"data\": \"aGVsbG8=\"\x7d")
      = (some (data.bytesOf "hello"), none) := by
  refine ⟨?_, ?_, by decide⟩
  · intro hd
    have hl : d.length ≠ 0 := fun h => hd (List.length_eq_zero.mp h)
    simp [data.DataFetcher.Fetch, data.Params.Validation, hdec, hl]
  · intro hd
    subst hd
    simp [data.DataFetcher.Fetch, data.Params.Validation, hdec]

/-- C11, instance: the blob of the scenario decodes to `hello` and is handed
back unchanged. -/
theorem C11_DataFetcher_passes_payload_through_witness :
    data.DataFetcher.Fetch data.exampleUnmarshal
        (data.bytesOf "\x7b\"data\": \"aGVsbG8=\"\x7d")
      = (some [104, 101, 108, 108, 111], none) :=
  (C11_DataFetcher_passes_payload_through data.exampleUnmarshal
    (data.bytesOf "\x7b\"data\": \"aGVsbG8=\"\x7d") [104, 101, 108, 108, 111]
    rfl).1 (by decide)

/-! ## The fetcher registry -/

theorem lookup_eq_none_iff_not_mem_names (reg : Registry) (name : String) :
    reg.lookup name = none ↔ name ∉ reg.names := by
  induction reg with
  | nil => simp [Registry.names]
  | cons e rest ih =>
    obtain ⟨k, v⟩ := e
    by_cases hk : name = k
    · subst hk
      simp [List.lookup, Registry.names]
    · have hb : (name == k) = false := by simpa using hk
      have hstep : List.lookup name ((k, v) :: rest) = List.lookup name rest := by
        simp [List.lookup, hb]
      rw [hstep, ih]
      simp [Registry.names, hk]

theorem filter_ne_of_not_mem_names (reg : Registry) (name : String)
    (h : name ∉ reg.names) : reg.filter (fun e => e.1 != name) = reg := by
  apply List.filter_eq_self.mpr
  intro e he
  have : e.1 ≠ name := by
    intro heq
    apply h
    rw [← heq]
    exact List.mem_map_of_mem Prod.fst he
  simpa using this

/-- C12: for every registry, name and non-nil constructor, `RegisterFetcher`
returns an error if and only if the name is empty or already registered; on
error the registry is unchanged; on success the registry is the old one with
the one entry `name -> constructor` added (every other name resolves as
before); and registered names stay unique and non-empty. -/
theorem C12_RegisterFetcher_registry (reg : Registry) (name : String) (fn : NewFetcherFunc) :
    ((RegisterFetcher reg name (some fn)).1 ≠ none ↔ name = "" ∨ name ∈ reg.names) ∧
    ((RegisterFetcher reg name (some fn)).1 ≠ none →
      (RegisterFetcher reg name (some fn)).2 = reg) ∧
    ((RegisterFetcher reg name (some fn)).1 = none →
      (RegisterFetcher reg name (some fn)).2 = (name, fn) :: reg ∧
      (RegisterFetcher reg name (some fn)).2.names = name :: reg.names ∧
      ∀ k, k ≠ name →
        (RegisterFetcher reg name (some fn)).2.lookup k = reg.lookup k) ∧
    (reg.names.Nodup ∧ "" ∉ reg.names →
      (RegisterFetcher reg name (some fn)).2.names.Nodup ∧
      "" ∉ (RegisterFetcher reg name (some fn)).2.names) := by
  have hlen : name.length = 0 ↔ name = "" :=
    ⟨fun h => String.ext (List.length_eq_zero.mp h), fun h => by subst h; rfl⟩
  by_cases hn : name = ""
  · subst hn
    simp [RegisterFetcher]
  · have hl : ¬ name.length = 0 := fun h => hn (hlen.mp h)
    cases hlook : reg.lookup name with
    | some f0 =>
      have hmem : name ∈ reg.names := by
        by_contra hc
        rw [(lookup_eq_none_iff_not_mem_names reg name).mpr hc] at hlook
        cases hlook
      simp [RegisterFetcher, hl, hlook, hmem]
    | none =>
      have hmem : name ∉ reg.names := (lookup_eq_none_iff_not_mem_names reg name).mp hlook
      have hfil := filter_ne_of_not_mem_names reg name hmem
      simp only [RegisterFetcher, hl, hlook, hfil, if_false]
      refine ⟨by simp [hn, hmem], by simp, ?_, ?_⟩
      · intro _
        refine ⟨trivial, rfl, ?_⟩
        intro k hk
        have hb : (k == name) = false := by simpa using hk
        simp [List.lookup, hb]
      · intro h
        refine ⟨?_, ?_⟩
        · simp only [Registry.names, List.map_cons]
          exact List.nodup_cons.mpr ⟨hmem, h.1⟩
        · simp only [Registry.names, List.map_cons, List.mem_cons, not_or]
          exact ⟨fun h2 => hn h2.symm, h.2⟩

/-! ## Data URIs -/

theorem cutInLine_append (c : Char) (t rest : List Char)
    (hc : c ∉ t) (hn : '\n' ∉ t) : cutInLine c (t ++ c :: rest) = some (t, rest) := by
  induction t with
  | nil => simp [cutInLine]
  | cons x xs ih =>
    have hx : x ≠ c := fun h => hc (by simp [h])
    have hx2 : x ≠ '\n' := fun h => hn (by simp [h])
    have ih2 := ih (fun h => hc (List.mem_cons_of_mem _ h)) (fun h => hn (List.mem_cons_of_mem _ h))
    simp [cutInLine, hx, hx2, ih2]

theorem takeWhile_no_newline (l : List Char) (h : '\n' ∉ l) :
    l.takeWhile (fun c => c != '\n') = l ∧ l.dropWhile (fun c => c != '\n') = [] := by
  induction l with
  | nil => simp
  | cons x xs ih =>
    have hx : x ≠ '\n' := fun h2 => h (by simp [h2])
    have ih2 := ih (fun h2 => h (List.mem_cons_of_mem _ h2))
    have hb : (x != '\n') = true := by simpa using hx
    simp [List.takeWhile, List.dropWhile, hb, ih2.1, ih2.2]

theorem EncodeChars_no_newline (b : Bytes) : '\n' ∉ EncodeChars b := by
  intro h
  have hf := List.filter_eq_self.mp (filter_EncodeChars b) '\n' h
  simp at hf

/-- The one match of the expression on a well-shaped data URI. -/
theorem FindAllStringSubmatch_shaped (b : Bytes) (t e : String)
    (ht : ∀ c ∈ t.data, c ≠ ';' ∧ c ≠ ',' ∧ c ≠ '\n')
    (he : ∀ c ∈ e.data, c ≠ ';' ∧ c ≠ ',' ∧ c ≠ '\n') :
    FindAllStringSubmatch ("data:" ++ t ++ ";" ++ e ++ "," ++ EncodeToString b) =
      [["data:" ++ t ++ ";" ++ e ++ "," ++ EncodeToString b, t, e, EncodeToString b]] := by
  have hd : ("data:" ++ t ++ ";" ++ e ++ "," ++ EncodeToString b).data =
      'd' :: 'a' :: 't' :: 'a' :: ':' :: (t.data ++ ';' :: (e.data ++ ',' :: EncodeChars b)) := by
    simp [String.data_append, EncodeToString]
  have h1 : cutInLine ';' (t.data ++ ';' :: (e.data ++ ',' :: EncodeChars b)) =
      some (t.data, e.data ++ ',' :: EncodeChars b) :=
    cutInLine_append ';' t.data _ (fun h => (ht _ h).1 rfl) (fun h => (ht _ h).2.2 rfl)
  have h2 : cutInLine ',' (e.data ++ ',' :: EncodeChars b) = some (e.data, EncodeChars b) :=
    cutInLine_append ',' e.data _ (fun h => (he _ h).2.1 rfl) (fun h => (he _ h).2.2 rfl)
  have h3 := takeWhile_no_newline (EncodeChars b) (EncodeChars_no_newline b)
  have hm : matchDataAt ('d' :: 'a' :: 't' :: 'a' :: ':' ::
      (t.data ++ ';' :: (e.data ++ ',' :: EncodeChars b))) =
      some (["data:" ++ t ++ ";" ++ e ++ "," ++ EncodeToString b, t, e, EncodeToString b], []) := by
    unfold matchDataAt
    have hp : "data:".data.isPrefixOf ('d' :: 'a' :: 't' :: 'a' :: ':' ::
      (t.data ++ ';' :: (e.data ++ ',' :: EncodeChars b))) = true := by
      simp [List.isPrefixOf]
    simp only [hp, if_true, List.drop, h1, h2, h3.1, h3.2]
    simp only [Option.some.injEq, Prod.mk.injEq, and_true, List.cons.injEq]
    refine ⟨?_, trivial, trivial, rfl⟩
    apply String.ext
    simp [String.data_append, EncodeToString]
  unfold FindAllStringSubmatch
  rw [hd]
  simp only [findAllFrom, hm]

/-- C14: for all bytes `b`, and every content type `t` and encoding label `e`
holding none of `;`, `,` and the line feed, `parseBase64Data` on the URI
`data:` + `t` + `;` + `e` + `,` + base64Std(`b`) returns the content type `t`
and the data `b` with no error. -/
theorem C14_parseBase64Data_round_trip (env : FileEnv) (p : File) (b : Bytes) (t e : String)
    (ht : ∀ c ∈ t.data, c ≠ ';' ∧ c ≠ ',' ∧ c ≠ '\n')
    (he : ∀ c ∈ e.data, c ≠ ';' ∧ c ≠ ',' ∧ c ≠ '\n')
    (hurl : p.Url = "data:" ++ t ++ ";" ++ e ++ "," ++ EncodeToString b) :
    File.parseBase64Data env p = .returned (t, b, none) := by
  unfold File.parseBase64Data
  rw [hurl, FindAllStringSubmatch_shaped b t e ht he]
  simp [DecodeString_EncodeToString]

/-- C14, instance: the URI `data:text/plain;base64,aGVsbG8=`. -/
theorem C14_parseBase64Data_round_trip_witness :
    File.parseBase64Data exampleEnv (File.new "data:text/plain;base64,aGVsbG8=" "/safe" "t")
      = .returned ("text/plain", [104, 101, 108, 108, 111], none) :=
  C14_parseBase64Data_round_trip exampleEnv
    (File.new "data:text/plain;base64,aGVsbG8=" "/safe" "t") [104, 101, 108, 108, 111]
    "text/plain" "base64" (by decide) (by decide) (by decide)

theorem matchDataAt_length (s : List Char) (m : List String) (r : List Char)
    (h : matchDataAt s = some (m, r)) : m.length = 4 := by
  unfold matchDataAt at h
  split at h
  · split at h
    · cases h
    · split at h
      · cases h
      · simp only [Option.some.injEq, Prod.mk.injEq] at h
        rw [← h.1]
        rfl
  · cases h

theorem findAllFrom_length (fuel : Nat) :
    ∀ (s : List Char) (m : List String), m ∈ findAllFrom fuel s → m.length = 4 := by
  induction fuel with
  | zero => intro s m h; simp [findAllFrom] at h
  | succ n ih =>
    intro s m h
    cases s with
    | nil => simp [findAllFrom] at h
    | cons c cs =>
      simp only [findAllFrom] at h
      split at h
      · rename_i m0 rest hm
        rcases List.mem_cons.mp h with h1 | h1
        · rw [h1]
          exact matchDataAt_length _ _ _ hm
        · exact ih _ _ h1
      · exact ih _ _ h

theorem decode_failure_ne_format_error (x : String) :
    ("parse base64 data failure: " ++ x : String) ≠
      "base64 data format error, the format should be: "
        ++ "data:content-type;encoding,base64string" := by
  intro h
  have h2 := congrArg (fun s : String => s.data.head?) h
  simp [String.data_append] at h2

/-- The format error of `parseBase64Data` is never returned: an empty match
list panics, and every match has four entries. -/
theorem parseBase64Data_no_format_error (env : FileEnv) (p : File) :
    File.parseBase64Data env p ≠
      .returned ("", [], some ⟨"base64 data format error, the format should be: "
        ++ "data:content-type;encoding,base64string"⟩) := by
  unfold File.parseBase64Data
  cases hm : FindAllStringSubmatch p.Url with
  | nil => simp
  | cons m0 rest =>
    have h4 : m0.length = 4 :=
      findAllFrom_length _ _ m0 (by unfold FindAllStringSubmatch at hm; rw [hm]; simp)
    match m0, h4 with
    | [a, b, c, d], _ =>
      have hf : (if ¬ ([a, b, c, d] :: rest).length = 1 then
          Outcome.returned (decide (¬ [a, b, c, d].length = 4))
          else Outcome.returned false) = Outcome.returned false := by
        split <;> simp
      simp only [ne_eq, List.head?_cons, List.get?_cons_succ, List.get?_cons_zero, hf]
      cases DecodeString d with
      | some x => simp
      | none =>
        simp only [Outcome.returned.injEq, Prod.mk.injEq, true_and, Option.some.injEq,
          GoError.mk.injEq]
        exact decode_failure_ne_format_error _

/-- C13: the URI `data:abc`, which has neither `;` nor `,`: the expression does
not match, `parseBase64Data` panics on `matched[0]` instead of returning the
format error, and so does `File.Path`; for no URI at all does
`parseBase64Data` return the format error. -/
theorem C13_parseBase64Data_panics_on_malformed_uri :
    FindAllStringSubmatch "data:abc" = [] ∧
    File.parseBase64Data exampleEnv (File.new "data:abc" "/safe" "t")
      = .panicked "index out of range [0] with length 0" ∧
    (File.Path exampleEnv (File.new "data:abc" "/safe" "t") FileWorld.empty).2.2
      = .panicked "index out of range [0] with length 0" ∧
    (∀ (env : FileEnv) (p : File), File.parseBase64Data env p ≠
      .returned ("", [], some ⟨"base64 data format error, the format should be: "
        ++ "data:content-type;encoding,base64string"⟩)) :=
  ⟨by decide, by decide, by decide, parseBase64Data_no_format_error⟩

/-! ## Unparsable URLs -/

/-- C18: the URL `:foo`, which `url.Parse` rejects with `missing protocol
scheme`: `File.Path` stores the parse error and then panics on the nil URL, so
no `(path, error)` pair is returned; the same happens for every non-empty URL
that `url.Parse` rejects. -/
theorem C18_Path_panics_on_unparsable_url :
    exampleUrlParse ":foo" = .error ⟨"parse \":foo\": missing protocol scheme"⟩ ∧
    File.Path exampleEnv (File.new ":foo" "/safe" "t") FileWorld.empty =
      ({ Url := ":foo", SafeDir := "/safe", TempDirPrefix := "t", path := "",
         lastError := some ⟨"parse \":foo\": missing protocol scheme"⟩,
         shouldCleanup := false, initDone := true },
       FileWorld.empty,
       .panicked "invalid memory address or nil pointer dereference") ∧
    (∀ (env : FileEnv) (url R pfx : String) (w : FileWorld) (e : GoError),
      url ≠ "" → env.urlParse url = .error e →
      (File.Path env (File.new url R pfx) w).2.2 =
        .panicked "invalid memory address or nil pointer dereference") := by
  refine ⟨rfl, by decide, ?_⟩
  intro env url R pfx w e hne hparse
  have hlen : url.length ≠ 0 := fun h => hne (String.ext (List.length_eq_zero.mp h))
  simp [File.Path, File.new, hlen, hparse]

/-! ## Memoised resolution -/

/-- A resolver whose initialisation is done answers from its fields. -/
theorem Path_done (env : FileEnv) (p : File) (w : FileWorld) (h : p.initDone = true) :
    File.Path env p w = (p, w, .returned (p.path, p.lastError)) := by
  simp [File.Path, h]

/-- Every call of `Path` leaves the initialisation done. -/
theorem Path_initDone (env : FileEnv) (p : File) (w : FileWorld) :
    (File.Path env p w).1.initDone = true := by
  unfold File.Path
  dsimp only
  repeat' split
  all_goals simp_all

/-- What a call of `Path` returns is what it left in the fields. -/
theorem Path_returned (env : FileEnv) (p : File) (w : FileWorld) (x : String × Option GoError)
    (h : (File.Path env p w).2.2 = .returned x) :
    x = ((File.Path env p w).1.path, (File.Path env p w).1.lastError) := by
  revert h
  unfold File.Path
  dsimp only
  repeat' split
  all_goals simp_all

/-- Later calls on a resolver whose initialisation is done change nothing. -/
theorem PathRepeated_done (env : FileEnv) (n : Nat) (p : File) (w : FileWorld)
    (h : p.initDone = true) :
    File.PathRepeated env n p w = (p, w, .returned (p.path, p.lastError)) := by
  induction n with
  | zero => exact Path_done env p w h
  | succ k ih =>
    simp only [File.PathRepeated, Path_done env p w h]
    exact ih

/-- For every resolver and every number of further calls of `Path`, each call
after the first leaves the resolver and the outside world (files written,
downloads made, UUIDs drawn) exactly as the first call left them, and returns
the path and error of the first call when that call returned. -/
theorem PathRepeated_same_as_first (env : FileEnv) (p : File) (w : FileWorld) (n : Nat) :
    (File.PathRepeated env (n + 1) p w).1 = (File.Path env p w).1 ∧
    (File.PathRepeated env (n + 1) p w).2.1 = (File.Path env p w).2.1 ∧
    (File.PathRepeated env (n + 1) p w).2.1.downloads = (File.Path env p w).2.1.downloads ∧
    (File.PathRepeated env (n + 1) p w).2.1.files = (File.Path env p w).2.1.files ∧
    (∀ x, (File.Path env p w).2.2 = .returned x →
      (File.PathRepeated env (n + 1) p w).2.2 = .returned x) := by
  have hrep := PathRepeated_done env n (File.Path env p w).1 (File.Path env p w).2.1
    (Path_initDone env p w)
  simp only [File.PathRepeated, hrep, true_and]
  intro x hx
  rw [Path_returned env p w x hx]

/-- A data URI is written to one temporary file by the first call; the third
call returns the same path and the one file is still the only one. -/
theorem PathRepeated_same_as_first_example :
    (File.PathRepeated exampleEnv 2
        (File.new "data:text/plain;base64,aGVsbG8=" "/safe" "t") FileWorld.empty).2.2
      = .returned ("/tmp/t/uuid-0", none) ∧
    (File.PathRepeated exampleEnv 2
        (File.new "data:text/plain;base64,aGVsbG8=" "/safe" "t") FileWorld.empty).2.1.files
      = [("/tmp/t/uuid-0", [104, 101, 108, 108, 111])] :=
  ⟨(PathRepeated_same_as_first exampleEnv
      (File.new "data:text/plain;base64,aGVsbG8=" "/safe" "t") FileWorld.empty 1).2.2.2.2
      ("/tmp/t/uuid-0", none) (by decide),
   by decide⟩

/-- C15: the resolver of the URI `data:abc`: the first call of `Path` fails by
panicking inside the once-only initialisation, which is then marked as done; the
second call returns the empty path with a nil error, so the failure of the first
resolution is not what later calls return.  For the URL `:foo` the first call
panics as well and the second returns the parse error. -/
theorem C15_second_call_differs_after_failed_first :
    (File.Path exampleEnv (File.new "data:abc" "/safe" "t") FileWorld.empty).2.2
      = .panicked "index out of range [0] with length 0" ∧
    (File.PathRepeated exampleEnv 1 (File.new "data:abc" "/safe" "t") FileWorld.empty).2.2
      = .returned ("", none) ∧
    (File.Path exampleEnv (File.new ":foo" "/safe" "t") FileWorld.empty).2.2
      = .panicked "invalid memory address or nil pointer dereference" ∧
    (File.PathRepeated exampleEnv 1 (File.new ":foo" "/safe" "t") FileWorld.empty).2.2
      = .returned ("", some ⟨"parse \":foo\": missing protocol scheme"⟩) := by
  decide

/-! ## The response renderer -/

/-- The helper after the calls of a template. -/
theorem foldl_call (calls : List RespCall) (h : RespHelper) :
    calls.foldl RespHelper.call h =
      { rw := responseAfter h.rw calls, hold := holdAfter h.hold calls } := by
  induction calls generalizing h with
  | nil => rfl
  | cons c cs ih =>
    rw [List.foldl_cons, ih]
    cases c <;> rfl

/-- A template that never calls `Hold` leaves the flag as it was. -/
theorem holdAfter_of_no_Hold (h : Bool) (calls : List RespCall)
    (hno : ∀ v, RespCall.Hold v ∉ calls) : holdAfter h calls = h := by
  induction calls generalizing h with
  | nil => rfl
  | cons c cs ih =>
    have hcs : ∀ v, RespCall.Hold v ∉ cs := fun v hv => hno v (List.mem_cons_of_mem _ hv)
    cases c with
    | Hold v => exact absurd (List.mem_cons_self _ _) (hno v)
    | SetHeader k v => exact ih h hcs
    | Write d => exact ih h hcs
    | WriteHeader c => exact ih h hcs

/-- The flag after a last call of `Hold` is the argument of that call. -/
theorem holdAfter_append_Hold (h v : Bool) (before after : List RespCall)
    (hno : ∀ u, RespCall.Hold u ∉ after) :
    holdAfter h (before ++ RespCall.Hold v :: after) = v := by
  induction before generalizing h with
  | nil => exact holdAfter_of_no_Hold v after hno
  | cons c cs ih => cases c <;> exact ih _

/-- C16 as stated fails: the template `toggle` invokes the hold control (with
true, then with false), and `writeResp` still writes its rendered output
`done` to the response body. -/
theorem C16_output_written_although_hold_invoked :
    RespCall.Hold true ∈ (toggleTmpl ⟨"markdown", "html", ⟨0, "", none⟩⟩).calls ∧
    writeResp templateServer ResponseWriter.fresh
        ⟨some ⟨"echo", [1]⟩, some ⟨"markdown", "html", "", []⟩, "toggle"⟩ ⟨0, "", none⟩
      = .returned ⟨[], some 200, "done"⟩ := by
  decide

/-- C16, amended: for every template and every response of a request with a
converter block, `writeResp` returns the response as the template's own calls
left it, with the rendered output written once after them exactly when the
hold flag is false after the execution; the flag is false when the template
never invoked the hold control and is otherwise the argument of its last
invocation; the error of the execution plays no part. -/
theorem C16_writeResp_hold (srv : Server) (rw : ResponseWriter) (convertArgs : ConvertArgs)
    (converter : ConvertOptions) (resp : ConvertResponse)
    (hconv : convertArgs.Converter = some converter) :
    (writeResp srv rw convertArgs resp =
      .returned
        (if holdAfter false
            (selectedTmpl srv convertArgs ⟨converter.From, converter.To, resp⟩).calls
         then responseAfter rw
            (selectedTmpl srv convertArgs ⟨converter.From, converter.To, resp⟩).calls
         else (responseAfter rw
            (selectedTmpl srv convertArgs ⟨converter.From, converter.To, resp⟩).calls).Write
            (selectedTmpl srv convertArgs ⟨converter.From, converter.To, resp⟩).out)) ∧
    ((∀ v, RespCall.Hold v ∉
        (selectedTmpl srv convertArgs ⟨converter.From, converter.To, resp⟩).calls) →
      holdAfter false
        (selectedTmpl srv convertArgs ⟨converter.From, converter.To, resp⟩).calls = false) ∧
    (∀ v before after,
      (selectedTmpl srv convertArgs ⟨converter.From, converter.To, resp⟩).calls
        = before ++ RespCall.Hold v :: after →
      (∀ u, RespCall.Hold u ∉ after) →
      holdAfter false
        (selectedTmpl srv convertArgs ⟨converter.From, converter.To, resp⟩).calls = v) := by
  refine ⟨?_, ?_, ?_⟩
  · unfold writeResp
    simp only [hconv, foldl_call, newRespHelper, RespHelper.Holding]
    unfold selectedTmpl
    repeat' split
    all_goals simp_all
  · intro hno
    exact holdAfter_of_no_Hold false _ hno
  · intro v before after hcalls hno
    rw [hcalls]
    exact holdAfter_append_Hold false v before after hno

/-- C16, instance: the template `manual` holds the response and writes the
message itself; its rendered output `ignored` is not written, although its
execution ended with an error. -/
theorem C16_writeResp_hold_witness :
    writeResp templateServer ResponseWriter.fresh
        ⟨some ⟨"echo", [1]⟩, some ⟨"markdown", "html", "", []⟩, "manual"⟩ ⟨400, "oops", none⟩
      = .returned ⟨[], some 200, "oops"⟩ :=
  ((C16_writeResp_hold templateServer ResponseWriter.fresh
    ⟨some ⟨"echo", [1]⟩, some ⟨"markdown", "html", "", []⟩, "manual"⟩
    ⟨"markdown", "html", "", []⟩ ⟨400, "oops", none⟩ rfl).1).trans (by decide)

/-- C17: the message `unknown writer "x"` (a double quote inside) is rendered by
the default template, and written by `writeResp`, as the text
`{"code":400,"message":"unknown writer "x""}`: the message is copied without
escaping, so the JSON string of the `message` member ends before `x` (it reads
`unknown writer `, and what follows it is neither `,` nor `}`); a message with a
line feed puts a raw control character into the string, which is no JSON string
at all. -/
theorem C17_default_template_does_not_escape_message :
    (defaultTmpl ⟨"markdown", "html", ⟨400, "unknown writer \"x\"", none⟩⟩).out
      = "\x7b\"code\":400,\"message\":\"" ++ "unknown writer \"x\"\"\x7d" ∧
    writeResp (exampleServer workingConverter) ResponseWriter.fresh
        ⟨some ⟨"echo", [1]⟩, some ⟨"markdown", "html", "", []⟩, ""⟩
        ⟨400, "unknown writer \"x\"", none⟩
      = .returned ⟨[], some 200,
          "\x7b\"code\":400,\"message\":\"unknown writer \"x\"\"\x7d"⟩ ∧
    jsonString ("unknown writer \"x\"\"\x7d".data)
      = some ("unknown writer ".data, "x\"\"\x7d".data) ∧
    (defaultTmpl ⟨"markdown", "html", ⟨400, "line one\nline two", none⟩⟩).out
      = "\x7b\"code\":400,\"message\":\"" ++ "line one\nline two\"\x7d" ∧
    jsonString ("line one\nline two\"\x7d".data) = none := by
  decide

/-- C12, instance: registering the driver `data` in an empty registry. -/
theorem C12_RegisterFetcher_registry_witness :
    (RegisterFetcher [] "data" (some (fun _ => .ok echoFetcher))).2.names = ["data"] :=
  ((C12_RegisterFetcher_registry [] "data" (fun _ => .ok echoFetcher)).2.2.1 rfl).2.1

end GoPandoc
